import Mathlib

/-!
# Verification of the MySiteGen-Agent workflow orchestration engine

Shallow embedding of the orchestration core of the MySiteGen-Agent
repository:

* `src/services/geminiService.ts` — the `retryWithBackoff` retry policy and
  the remote generation agents built on it;
* `src/services/githubService.ts` — the `fetchWithRetry` wrapper and the
  repository-hosting operations (`fetchRepoDetails`, `createRepository`,
  `publishToGithub`, `enablePages`);
* the application component (`src/unnamed/part_000`) — the task ledger
  (`setTaskStatus`), the workflow definition table (`WORKFLOWS`,
  `getCurrentWorkflowInfo`), the abort handler (`handleAbort`) and the four
  pipeline runners (`handleInitialBuild`, `handleTuneDesign`, `handleImport`,
  `handlePublish`).

Remote services are modelled as environments that give each wrapped remote
call its overall outcome (`Except GErr α`).  Cancellation is modelled by an
abort schedule over the sequence of `await` points a run performs, mirroring
the single-threaded JavaScript event loop: the abort click handler can only
run while the pipeline is suspended at an `await`.
-/

/-- Contiguous-sublist search used to model JavaScript
`String.prototype.includes`. -/
def containsSeg (pat : List Char) : List Char → Bool
  | [] => pat.isEmpty
  | c :: tl => List.isPrefixOf pat (c :: tl) || containsSeg pat tl

/-- Substring test, modelling JavaScript `String.prototype.includes`. -/
def strContains (s pat : String) : Bool :=
  containsSeg pat.data s.data

/-- A JavaScript error value as far as the orchestration code inspects it:
`error.name`, `error.message` and `error.status`.  `status = 0` models an
absent status field. -/
structure GErr where
  name : String
  message : String
  status : Nat
deriving DecidableEq

/-- The `DOMException("…", "AbortError")` thrown by `retryWithBackoff` in
`geminiService.ts` when the signal is aborted. -/
def abortErr : GErr := ⟨"AbortError", "ユーザーによって中断されました", 0⟩

/-- The `DOMException("Aborted", "AbortError")` thrown in
`githubService.ts`. -/
def abortErrGh : GErr := ⟨"AbortError", "Aborted", 0⟩

/-- The error thrown by `retryWithBackoff` when no API key is configured. -/
def apiKeyErr : GErr :=
  ⟨"Error", "APIキーが設定されていません。環境変数 GEMINI_API_KEY を確認してください。", 0⟩

/-- The unreachable-in-practice error thrown after `retryWithBackoff`'s
loop (reached only when `maxRetries = 0`). -/
def apiConnectErr : GErr :=
  ⟨"Error", "APIへの接続に失敗しました。時間をおいて再度お試しください。", 0⟩

/-- `error.name === 'TypeError' || error.message?.includes('fetch')` from
`retryWithBackoff`. -/
def isNetworkError (e : GErr) : Bool :=
  e.name == "TypeError" || strContains e.message "fetch"

/-- `error.status === 429 || error.message?.includes('429')` from
`retryWithBackoff`. -/
def isRateLimit (e : GErr) : Bool :=
  e.status == 429 || strContains e.message "429"

/-- The retryability classification of `retryWithBackoff`
(`geminiService.ts` lines 34–36). -/
def isRetryable (e : GErr) : Bool :=
  isNetworkError e || isRateLimit e || strContains e.message "overloaded"

/-- Abort schedule for the cancellation token observed inside a retry
wrapper.  Checkpoints are numbered so that the pre-attempt check of attempt
`i` is checkpoint `2*i` and the post-failure check of attempt `i` is
checkpoint `2*i+1`; `some t` means the flag is set from checkpoint `t` on
(the flag is set exactly once and never cleared). -/
def abortedAt (tAbort : Option Nat) (k : Nat) : Bool :=
  match tAbort with
  | some t => decide (t ≤ k)
  | none => false

/-- Result of one run of a retry wrapper: the overall outcome, how many
times the wrapped operation was invoked, and the back-off waits (in ms)
performed between attempts, in order. -/
structure RetryOutcome (T : Type) where
  result : Except GErr T
  invocations : Nat
  waits : List ℚ

/-- The attempt loop of `retryWithBackoff` (`geminiService.ts` lines
26–42).  `op i` is the outcome of the `i`-th invocation of the wrapped
operation; `remaining` counts the attempts left including the current one,
so `remaining = 1` is the `i === maxRetries - 1` case that rethrows instead
of waiting; `delay` is the current back-off, multiplied by `1.5` after each
wait. -/
def retryGo (op : Nat → Except GErr T) (tAbort : Option Nat) :
    Nat → Nat → ℚ → RetryOutcome T
  | 0, _, _ => ⟨.error apiConnectErr, 0, []⟩
  | r + 1, i, delay =>
    if abortedAt tAbort (2 * i) then ⟨.error abortErr, 0, []⟩
    else
      match op i with
      | .ok v => ⟨.ok v, 1, []⟩
      | .error e =>
        if abortedAt tAbort (2 * i + 1) then ⟨.error abortErr, 1, []⟩
        else if !isRetryable e then ⟨.error e, 1, []⟩
        else if r = 0 then ⟨.error e, 1, []⟩
        else
          let rest := retryGo op tAbort r (i + 1) (delay * (3 / 2))
          ⟨rest.result, rest.invocations + 1, delay :: rest.waits⟩

/-- `retryWithBackoff` from `geminiService.ts`: checks the API key, then
runs the attempt loop.  `apiKeySet` models a non-empty `process.env.API_KEY`. -/
def retryWithBackoff (op : Nat → Except GErr T) (maxRetries : Nat)
    (initialDelay : ℚ) (tAbort : Option Nat) (apiKeySet : Bool) :
    RetryOutcome T :=
  if !apiKeySet then ⟨.error apiKeyErr, 0, []⟩
  else retryGo op tAbort maxRetries 0 initialDelay

/-- The `maxRetries` argument every agent in `geminiService.ts` passes to
`retryWithBackoff` (also its declared default). -/
def geminiMaxRetries : Nat := 5

/-- The `initialDelay` argument every agent in `geminiService.ts` passes to
`retryWithBackoff` (also its declared default). -/
def geminiInitialDelay : ℚ := 2000

/-- An HTTP response as far as `githubService.ts` inspects it. -/
structure HttpResponse where
  status : Nat
deriving DecidableEq

/-- `res.ok`: status in the 200–299 range. -/
def HttpResponse.ok (r : HttpResponse) : Bool :=
  decide (200 ≤ r.status) && decide (r.status ≤ 299)

/-- The `Error` thrown inside `fetchWithRetry` when the response status is
429 or ≥ 500. -/
def httpStatusErr (status : Nat) : GErr :=
  ⟨"Error", "HTTP " ++ toString status, 0⟩

/-- The error-message enhancement after `fetchWithRetry`'s loop
(`githubService.ts` lines 56–60). -/
def enhanceLastError (lastError : Option GErr) : GErr :=
  match lastError with
  | some e =>
    if e.name == "TypeError" || strContains e.message "Failed to fetch" then
      ⟨"Error", "GitHub APIへの接続に失敗しました: " ++ e.message ++ " (Network Error)", 0⟩
    else e
  | none => ⟨"Error", "ネットワークエラーが発生しました。", 0⟩

/-- Result of one run of `fetchWithRetry`. -/
structure FetchOutcome where
  result : Except GErr HttpResponse
  invocations : Nat
  waits : List Nat

/-- The attempt loop of `fetchWithRetry` (`githubService.ts` lines 32–61).
`f i` is the outcome of the `i`-th `fetch`; a response with status 429 or
≥ 500 is converted to a thrown error and (if attempts remain) retried after
a `1000 * 2^i` ms wait.  An `AbortError` from `fetch` propagates without
retry; the final rethrow enhances network errors. -/
def fetchRetryGo (f : Nat → Except GErr HttpResponse) (tAbort : Option Nat) :
    Nat → Nat → Option GErr → FetchOutcome
  | 0, _, last => ⟨.error (enhanceLastError last), 0, []⟩
  | r + 1, i, _ =>
    if abortedAt tAbort (2 * i) then ⟨.error abortErrGh, 0, []⟩
    else
      let attempt : Except GErr HttpResponse :=
        match f i with
        | .ok res =>
          if res.status == 429 || decide (res.status ≥ 500) then
            .error (httpStatusErr res.status)
          else .ok res
        | .error e => .error e
      match attempt with
      | .ok res => ⟨.ok res, 1, []⟩
      | .error e =>
        if e.name == "AbortError" then ⟨.error e, 1, []⟩
        else if r = 0 then ⟨.error (enhanceLastError (some e)), 1, []⟩
        else
          let rest := fetchRetryGo f tAbort r (i + 1) (some e)
          ⟨rest.result, rest.invocations + 1, (1000 * 2 ^ i) :: rest.waits⟩

/-- `fetchWithRetry` from `githubService.ts`. -/
def fetchWithRetry (f : Nat → Except GErr HttpResponse) (retries : Nat)
    (tAbort : Option Nat) : FetchOutcome :=
  fetchRetryGo f tAbort retries 0 none

/-- The `retries` argument every call site in `githubService.ts` passes to
`fetchWithRetry` (also its declared default). -/
def githubRetries : Nat := 3

/-- `SiteType` from `types.ts`. -/
inductive SiteType where
  | Corporate
  | Personal
deriving DecidableEq

/-- `SiteTone` from `types.ts`. -/
inductive SiteTone where
  | Professional
  | Creative
  | Minimal
  | Vivid
  | Brutalist
deriving DecidableEq

/-- `Identity` from `types.ts`. -/
structure Identity where
  siteName : String
  slug : String
  mission : String
  brandDescription : String
  themeColor : String
  tone : Option SiteTone
deriving DecidableEq

/-- `HubPage` from `types.ts`. -/
structure HubPage where
  id : String
  title : String
  slug : String
  description : String
  html : Option String
deriving DecidableEq

/-- `Article` from `types.ts`. -/
structure Article where
  id : String
  hubId : String
  title : String
  slug : String
  contentHtml : Option String
  createdAt : String
deriving DecidableEq

/-- `GitHubConfig` from `types.ts`. -/
structure GitHubConfig where
  token : String
  repo : String
  branch : String
  path : String
deriving DecidableEq

/-- `ExecutionTask.status` values from `types.ts`. -/
inductive TaskStatus where
  | pending
  | running
  | completed
  | failed
deriving DecidableEq

/-- `ExecutionTask` from `types.ts`. -/
structure ExecutionTask where
  id : String
  label : String
  status : TaskStatus
  groupId : Option String
  groupLabel : Option String
deriving DecidableEq

/-- `ProjectState.status` values from `types.ts`. -/
inductive Status where
  | idle
  | importing
  | analyzing_site
  | building_identity
  | generating_strategy
  | generating_hubs
  | ready
  | creating_repo
  | pushing_files
  | enabling_pages
  | tuning_design
  | deployed
deriving DecidableEq

/-- The three resting (non-executing) statuses. -/
def Status.isResting : Status → Bool
  | .idle => true
  | .ready => true
  | .deployed => true
  | _ => false

/-- `ProjectState` from `types.ts` (the fields the orchestration core reads
or writes). -/
structure ProjectState where
  opinion : String
  siteType : SiteType
  identity : Option Identity
  hubs : List HubPage
  articles : List Article
  gtmId : String
  adsenseId : String
  strategyRationale : Option String
  status : Status
  executionPlan : List ExecutionTask
  currentDetail : Option String
  githubConfig : GitHubConfig
deriving DecidableEq

/-- `setTaskStatus` from the application component (lines 142–147): replaces
the status of every task whose id matches, via `Array.prototype.map`. -/
def setTaskStatus (plan : List ExecutionTask) (id : String)
    (status : TaskStatus) : List ExecutionTask :=
  plan.map fun t => if t.id == id then { t with status := status } else t

/-- A step of a workflow definition (`WorkflowStep` in the application
component). -/
structure WorkflowStep where
  id : String
  label : String
  description : String
  statuses : List Status
deriving DecidableEq

/-- `WorkflowDefinition` from the application component. -/
structure WorkflowDefinition where
  title : String
  steps : List WorkflowStep
deriving DecidableEq

/-- The `build` workflow definition. -/
def buildWorkflow : WorkflowDefinition :=
  ⟨"サイト新規構築フロー",
    [⟨"phase1", "ブランド定義", "AIによるアイデンティティ策定", [.building_identity]⟩,
     ⟨"phase2", "戦略・設計", "サイト構造とUXの設計", [.generating_strategy]⟩,
     ⟨"phase3", "実装・構築", "HTML/CSSコーディングと生成", [.generating_hubs]⟩,
     ⟨"phase4", "仕上げ", "統合処理と最終調整", [.ready]⟩]⟩

/-- The `deploy` workflow definition. -/
def deployWorkflow : WorkflowDefinition :=
  ⟨"GitHubデプロイフロー",
    [⟨"phase1", "リポジトリ準備", "リモートリポジトリの作成・確認", [.creating_repo]⟩,
     ⟨"phase2", "アセット転送", "ファイルのプッシュとコミット", [.pushing_files]⟩,
     ⟨"phase3", "公開設定", "GitHub Pagesの有効化", [.enabling_pages, .deployed]⟩]⟩

/-- The `import` workflow definition. -/
def importWorkflow : WorkflowDefinition :=
  ⟨"リポジトリ復元フロー",
    [⟨"phase1", "リソース取得", "リポジトリ情報の解析", [.importing]⟩,
     ⟨"phase2", "構造分析", "HTML解析とアイデンティティ抽出", [.analyzing_site]⟩]⟩

/-- The `tune` workflow definition.  Note that both of its steps carry the
status `tuning_design`. -/
def tuneWorkflow : WorkflowDefinition :=
  ⟨"デザイン調整フロー",
    [⟨"planning", "作業計画策定", "AIによる指示の解析とプラン構築", [.tuning_design]⟩,
     ⟨"execution", "デザイン適用", "各ページへのHTMLリファクタリング", [.tuning_design]⟩]⟩

/-- `WORKFLOWS` from the application component, in object-key insertion
order (the order `for … in` iterates). -/
def WORKFLOWS : List (String × WorkflowDefinition) :=
  [("build", buildWorkflow), ("deploy", deployWorkflow),
   ("import", importWorkflow), ("tune", tuneWorkflow)]

/-- The `steps.findIndex(step => step.statuses.includes(state.status))`
lookup inside `getCurrentWorkflowInfo`. -/
def findStepIndex (steps : List WorkflowStep) (s : Status) : Option Nat :=
  steps.findIdx? fun step => step.statuses.contains s

/-- Iteration of `getCurrentWorkflowInfo` over the definition table:
returns the first definition containing a step whose status set contains
`s`, with that step's index. -/
def resolveWorkflow (s : Status) :
    List (String × WorkflowDefinition) → Option (WorkflowDefinition × Nat)
  | [] => none
  | (_, def_) :: rest =>
    match findStepIndex def_.steps s with
    | some i => some (def_, i)
    | none => resolveWorkflow s rest

/-- `getCurrentWorkflowInfo` from the application component (lines
163–170), as a function of the current status. -/
def getCurrentWorkflowInfo (s : Status) : Option (WorkflowDefinition × Nat) :=
  resolveWorkflow s WORKFLOWS

/-- Number of steps, across all workflow definitions, whose status set
contains `s`. -/
def stepOccurrences (s : Status) : Nat :=
  (WORKFLOWS.map fun p =>
    (p.2.steps.filter fun step => step.statuses.contains s).length).sum

/-- Number of workflow definitions with at least one step whose status set
contains `s`. -/
def defOccurrences (s : Status) : Nat :=
  (WORKFLOWS.filter fun p =>
    p.2.steps.any fun step => step.statuses.contains s).length

/-- Suffix test, modelling JavaScript `String.prototype.endsWith`. -/
def strEndsWith (s pat : String) : Bool :=
  List.isSuffixOf pat.data s.data

/-- Cancellation schedule of one pipeline run.  JavaScript is
single-threaded, so the abort click handler (`handleAbort`) can only run
while the pipeline is suspended at an `await`: `during t completes` means
the user aborts while the run's `t`-th remote call (0-indexed) is in
flight; `completes` tells whether that in-flight operation still resolves
successfully (possible for generation calls, whose underlying request does
not receive the signal — only the retry wrapper polls it). -/
inductive AbortSpec where
  | never
  | during (t : Nat) (completes : Bool)
deriving DecidableEq

/-- Whether `signal.aborted` reads `true` at a point where `awaits` remote
calls have already been started. -/
def flagSet (a : AbortSpec) (awaits : Nat) : Bool :=
  match a with
  | .never => false
  | .during t _ => decide (t < awaits)

/-- Context threaded through a pipeline run: the shared project state, the
number of remote calls started so far, and the trace of remote operations
actually invoked. -/
structure RunCtx where
  st : ProjectState
  awaits : Nat
  calls : List String
deriving DecidableEq

/-- Result of a fragment of pipeline code: normal value, early `return`
(the `if (signal.aborted) return` checks), or a thrown error propagating to
the enclosing `catch`. -/
inductive StepR (α : Type) where
  | ok : α → RunCtx → StepR α
  | ret : RunCtx → StepR α
  | exn : GErr → RunCtx → StepR α

/-- Sequencing of pipeline fragments (`await`-style chaining with
exception propagation). -/
def StepR.bind : StepR α → (α → RunCtx → StepR β) → StepR β
  | .ok v ctx, f => f v ctx
  | .ret ctx, _ => .ret ctx
  | .exn e ctx, _ => .exn e ctx

/-- The state update performed by `handleAbort` (application component
lines 154–160): status falls back to the last known-good resting state,
the ledger and the detail line are cleared. -/
def abortReset (st : ProjectState) : ProjectState :=
  { st with status := if st.identity.isSome then .ready else .idle,
            executionPlan := [], currentDetail := none }

/-- Apply a pure state update (an `updateState` call). -/
def updSt (ctx : RunCtx) (f : ProjectState → ProjectState) : RunCtx :=
  { ctx with st := f ctx.st }

/-- A `setTaskStatus(id, status)` call on the current state. -/
def setTaskCtx (ctx : RunCtx) (id : String) (s : TaskStatus) : RunCtx :=
  updSt ctx fun st =>
    { st with executionPlan := setTaskStatus st.executionPlan id s }

/-- A remote generation call through `retryWithBackoff` with the run's
signal.  The wrapper checks the token before each attempt (abort before the
call starts ⇒ `AbortError` without invoking) and after each failure (abort
during a failing call ⇒ `AbortError`); an in-flight attempt that resolves
successfully is returned even if the user aborted meanwhile
(`completes = true`).  When the abort fires during this call, the
`handleAbort` state reset happens at this suspension point. -/
def geminiCall (a : AbortSpec) (name : String) (res : Except GErr α)
    (ctx : RunCtx) : StepR α :=
  match a with
  | .never =>
    let ctx' := { ctx with awaits := ctx.awaits + 1, calls := ctx.calls ++ [name] }
    match res with
    | .ok v => .ok v ctx'
    | .error e => .exn e ctx'
  | .during t completes =>
    if t < ctx.awaits then
      .exn abortErr { ctx with awaits := ctx.awaits + 1 }
    else if t == ctx.awaits then
      let ctx' := { ctx with st := abortReset ctx.st, awaits := ctx.awaits + 1,
                             calls := ctx.calls ++ [name] }
      if completes then
        match res with
        | .ok v => .ok v ctx'
        | .error _ => .exn abortErr ctx'
      else .exn abortErr ctx'
    else
      let ctx' := { ctx with awaits := ctx.awaits + 1, calls := ctx.calls ++ [name] }
      match res with
      | .ok v => .ok v ctx'
      | .error e => .exn e ctx'

/-- A hosting-service call through `fetchWithRetry`.  Unlike the generation
calls, the signal is passed to `fetch` itself, so an abort during an
in-flight request always rejects it with `AbortError`. -/
def githubCall (a : AbortSpec) (name : String) (res : Except GErr α)
    (ctx : RunCtx) : StepR α :=
  match a with
  | .never =>
    let ctx' := { ctx with awaits := ctx.awaits + 1, calls := ctx.calls ++ [name] }
    match res with
    | .ok v => .ok v ctx'
    | .error e => .exn e ctx'
  | .during t _ =>
    if t < ctx.awaits then
      .exn abortErrGh { ctx with awaits := ctx.awaits + 1 }
    else if t == ctx.awaits then
      .exn abortErrGh { ctx with st := abortReset ctx.st, awaits := ctx.awaits + 1,
                                 calls := ctx.calls ++ [name] }
    else
      let ctx' := { ctx with awaits := ctx.awaits + 1, calls := ctx.calls ++ [name] }
      match res with
      | .ok v => .ok v ctx'
      | .error e => .exn e ctx'

/-- `generateReadmeAgent` is invoked without the signal (`handlePublish`
line 415), so its wrapper never observes the token: the call always runs
and returns its own outcome even after an abort. -/
def geminiCallNoSignal (a : AbortSpec) (name : String) (res : Except GErr α)
    (ctx : RunCtx) : StepR α :=
  let st' := match a with
    | .during t _ => if t == ctx.awaits then abortReset ctx.st else ctx.st
    | .never => ctx.st
  let ctx' := { ctx with st := st', awaits := ctx.awaits + 1,
                         calls := ctx.calls ++ [name] }
  match res with
  | .ok v => .ok v ctx'
  | .error e => .exn e ctx'

/-- How a pipeline run ended: through its success path, through the
non-abort branch of its `catch`, through an abort (`return` on a set flag
or a caught `AbortError`), or not started at all (guard clause). -/
inductive ExitKind where
  | success
  | fatal
  | aborted
  | skipped
deriving DecidableEq

/-- Final state, call trace and exit classification of one pipeline run. -/
structure RunResult where
  st : ProjectState
  calls : List String
  exit : ExitKind
deriving DecidableEq

/-- An `ExecutionTask` without group. -/
def mkTask (id label : String) (s : TaskStatus) : ExecutionTask :=
  ⟨id, label, s, none, none⟩

/-- An `ExecutionTask` with group. -/
def mkGroupTask (id label : String) (s : TaskStatus) (gid glabel : String) :
    ExecutionTask :=
  ⟨id, label, s, some gid, some glabel⟩

/-- The state update of the non-abort `catch` branch of `handleInitialBuild`
(line 253) and `handleImport` (line 393): fall back to `idle`, clear the
ledger and the detail line. -/
def fatalResetIdle (st : ProjectState) : ProjectState :=
  { st with status := .idle, executionPlan := [], currentDetail := none }

/-- The state update of the non-abort `catch` branch of `handlePublish`
(line 424): fall back to `ready`, clear the ledger and the detail line. -/
def fatalResetReady (st : ProjectState) : ProjectState :=
  { st with status := .ready, executionPlan := [], currentDetail := none }

/-- Overall outcomes of the remote calls the Build pipeline issues:
`generateIdentityAgent`, `generateStrategyAgent`, the per-hub
`generateHtmlAgent` calls (indexed by loop iteration) and the final
homepage `generateHtmlAgent` call. -/
structure BuildEnv where
  identityRes : Except GErr Identity
  strategyRes : Except GErr (List HubPage × String)
  htmlRes : Nat → Except GErr String
  indexRes : Except GErr String

/-- The ledger seeding and status transition at the top of
`handleInitialBuild` (lines 200–207). -/
def buildSeed (s : ProjectState) : ProjectState :=
  { s with status := .building_identity,
           executionPlan := [mkTask "identity" "ブランドコンセプトの策定" .running,
                             mkTask "strategy" "サイト構造・戦略の設計" .pending],
           currentDetail := some "AIによる分析を実行中..." }

/-- The per-hub ledger entry appended before the generation loop. -/
def buildHubTask (h : HubPage) : ExecutionTask :=
  mkGroupTask ("build-" ++ h.id) ("生成: " ++ h.title) .pending
    "gen-pages" "全ページの生成プロセス"

/-- The per-hub generation loop of `handleInitialBuild` (lines 230–238):
checks the token at each iteration's head, marks the task running, updates
the detail line, performs one wrapped generation call and accumulates the
hub with its markup. -/
def buildGenLoop (a : AbortSpec) (env : BuildEnv) :
    List HubPage → Nat → List HubPage → RunCtx → StepR (List HubPage)
  | [], _, acc, ctx => .ok acc ctx
  | h :: rest, k, acc, ctx =>
    if flagSet a ctx.awaits then .ret ctx
    else
      let ctx1 := setTaskCtx ctx ("build-" ++ h.id) .running
      let ctx2 := updSt ctx1 fun st =>
        { st with currentDetail := some ("HTMLコーディング中: " ++ h.slug ++ "/index.html") }
      StepR.bind (geminiCall a "generateHtml" (env.htmlRes k) ctx2) fun html ctx3 =>
        let ctx4 := setTaskCtx ctx3 ("build-" ++ h.id) .completed
        buildGenLoop a env rest (k + 1) (acc ++ [{ h with html := some html }]) ctx4

/-- `handleInitialBuild` (lines 197–255).  `s` is the state captured by the
click handler's closure (equal to the live state when the run starts). -/
def handleInitialBuild (s : ProjectState) (env : BuildEnv) (a : AbortSpec) :
    RunResult :=
  let ctx0 : RunCtx := ⟨buildSeed s, 0, []⟩
  let body : StepR Unit :=
    StepR.bind (geminiCall a "generateIdentity" env.identityRes ctx0) fun identity ctx1 =>
    let ctx2 := setTaskCtx ctx1 "identity" .completed
    let ctx3 := setTaskCtx ctx2 "strategy" .running
    let ctx4 := updSt ctx3 fun st =>
      { st with identity := some identity, status := .generating_strategy,
                currentDetail := some "サイト構成案を生成中..." }
    StepR.bind (geminiCall a "generateStrategy" env.strategyRes ctx4) fun strat ctx5 =>
    let hubs := strat.1
    let ctx6 := setTaskCtx ctx5 "strategy" .completed
    let hubTasks := hubs.map buildHubTask ++ [mkTask "finalize-index" "トップページの統合" .pending]
    -- Line 226 spreads `state.executionPlan` from the render closure (the
    -- click-time plan), not the live plan, before the freshly pushed tasks.
    let ctx7 := updSt ctx6 fun st =>
      { st with hubs := hubs, status := .generating_hubs,
                strategyRationale := some strat.2,
                executionPlan := s.executionPlan ++ hubTasks,
                currentDetail := some "ページ生成プロセスを開始..." }
    StepR.bind (buildGenLoop a env hubs 0 [] ctx7) fun updatedHubs ctx8 =>
    let ctx9 := setTaskCtx ctx8 "finalize-index" .running
    StepR.bind (geminiCall a "generateIndexHtml" env.indexRes ctx9) fun indexHtml ctx10 =>
    let ctx11 := setTaskCtx ctx10 "finalize-index" .completed
    let homeHub : HubPage := ⟨"home", "ホーム", "index", "トップページ", some indexHtml⟩
    let ctx12 := updSt ctx11 fun st =>
      { st with hubs := homeHub :: updatedHubs, status := .ready,
                executionPlan := [], currentDetail := none }
    .ok () ctx12
  match body with
  | .ok _ ctx => ⟨ctx.st, ctx.calls, .success⟩
  | .ret ctx => ⟨ctx.st, ctx.calls, .aborted⟩
  | .exn e ctx =>
    if e.name == "AbortError" then ⟨ctx.st, ctx.calls, .aborted⟩
    else ⟨fatalResetIdle ctx.st, ctx.calls, .fatal⟩

/-- Payload of `generateTunePlanAgent`. -/
structure TunePlan where
  planSummary : String
  tasks : List String
deriving DecidableEq

/-- Overall outcomes of the remote calls the Tune pipeline issues. -/
structure TuneEnv where
  planRes : Except GErr TunePlan
  tuneRes : Nat → Except GErr String

/-- Whether a tuning target came from the hub list or the article list. -/
inductive TargetKind where
  | hub
  | article
deriving DecidableEq

/-- One entry of `targetsToProcess` in `handleTuneDesign`. -/
structure TuneTarget where
  id : String
  title : String
  html : String
  kind : TargetKind
deriving DecidableEq

/-- Target resolution of `handleTuneDesign` (lines 278–286), over the
closure state: the sentinel `"all"` selects every hub then every article;
otherwise the matching hub, else the matching article, else nothing. -/
def tuneTargetsFor (s : ProjectState) (target : String) : List TuneTarget :=
  if target == "all" then
    s.hubs.map (fun h => ⟨h.id, h.title, h.html.getD "", .hub⟩)
      ++ s.articles.map (fun a => ⟨a.id, a.title, a.contentHtml.getD "", .article⟩)
  else
    match s.hubs.find? (fun h => h.id == target) with
    | some hub => [⟨hub.id, hub.title, hub.html.getD "", .hub⟩]
    | none =>
      match s.articles.find? (fun a => a.id == target) with
      | some art => [⟨art.id, art.title, art.contentHtml.getD "", .article⟩]
      | none => []

/-- `findIndex` followed by an index assignment on the local hub copy:
replaces the html of the first hub with the given id, and leaves the list
unchanged when no hub matches (the JavaScript `arr[-1] = v` assignment does
not change any element). -/
def setHubHtmlFirst (id html : String) : List HubPage → List HubPage
  | [] => []
  | h :: tl =>
    if h.id == id then { h with html := some html } :: tl
    else h :: setHubHtmlFirst id html tl

/-- Same as `setHubHtmlFirst` for the local article copy. -/
def setArticleHtmlFirst (id html : String) : List Article → List Article
  | [] => []
  | art :: tl =>
    if art.id == id then { art with contentHtml := some html } :: tl
    else art :: setArticleHtmlFirst id html tl

/-- The per-target refactor loop of `handleTuneDesign` (lines 307–323).
The updated markup is accumulated in the local copies `uh`/`ua`; the shared
state only receives ledger and detail updates inside the loop. -/
def tuneLoop (a : AbortSpec) (env : TuneEnv) :
    List TuneTarget → Nat → List HubPage → List Article → RunCtx →
    StepR (List HubPage × List Article)
  | [], _, uh, ua, ctx => .ok (uh, ua) ctx
  | t :: rest, k, uh, ua, ctx =>
    if flagSet a ctx.awaits then .ret ctx
    else
      let ctx1 := setTaskCtx ctx ("tune-" ++ t.id) .running
      let ctx2 := updSt ctx1 fun st =>
        { st with currentDetail := some ("リファクタリング実行中: " ++ t.title) }
      StepR.bind (geminiCall a "tunePageDesign" (env.tuneRes k) ctx2) fun newHtml ctx3 =>
        let uh' := match t.kind with
          | .hub => setHubHtmlFirst t.id newHtml uh
          | .article => uh
        let ua' := match t.kind with
          | .hub => ua
          | .article => setArticleHtmlFirst t.id newHtml ua
        let ctx4 := setTaskCtx ctx3 ("tune-" ++ t.id) .completed
        tuneLoop a env rest (k + 1) uh' ua' ctx4

/-- The `finally` block of `handleTuneDesign` (line 333), executed on every
exit path of the pipeline, early returns included. -/
def tuneFinally (st : ProjectState) : ProjectState :=
  { st with status := .ready, executionPlan := [], currentDetail := none }

/-- The ledger seeding and status transition at the top of
`handleTuneDesign` (lines 265–269). -/
def tuneSeed (s : ProjectState) : ProjectState :=
  { s with status := .tuning_design,
           executionPlan := [mkTask "plan-generation" "指示の解析と作業プロセスの決定" .running],
           currentDetail := some "ユーザーの要望をエンジニアリング要件へ分解中..." }

/-- `handleTuneDesign` (lines 257–335). -/
def handleTuneDesign (s : ProjectState) (instruction target : String)
    (env : TuneEnv) (a : AbortSpec) : RunResult :=
  if s.identity.isNone || instruction == "" then ⟨s, [], .skipped⟩
  else
    let ctx0 : RunCtx := ⟨tuneSeed s, 0, []⟩
    let body : StepR Unit :=
      StepR.bind (geminiCall a "generateTunePlan" env.planRes ctx0) fun tunePlan ctx1 =>
      let ctx2 := setTaskCtx ctx1 "plan-generation" .completed
      let targets := tuneTargetsFor s target
      let planTasks := tunePlan.tasks.enum.map fun p =>
        mkTask ("plan-step-" ++ toString p.1) ("【方針】" ++ p.2) .completed
      let targetTasks := targets.map fun t =>
        mkGroupTask ("tune-" ++ t.id) ("反映: " ++ t.title) .pending
          "tune-pages" "ページのリファクタリング反映"
      -- Line 302 spreads `state.executionPlan` from the render closure.
      let ctx3 := updSt ctx2 fun st =>
        { st with executionPlan := s.executionPlan ++ (planTasks ++ targetTasks) }
      -- Lines 304–305 copy `state.hubs` / `state.articles` from the closure.
      StepR.bind (tuneLoop a env targets 0 s.hubs s.articles ctx3) fun upd ctx4 =>
      let ctx5 := updSt ctx4 fun st => { st with hubs := upd.1, articles := upd.2 }
      .ok () ctx5
    match body with
    | .ok _ ctx => ⟨tuneFinally ctx.st, ctx.calls, .success⟩
    | .ret ctx => ⟨tuneFinally ctx.st, ctx.calls, .aborted⟩
    | .exn e ctx =>
      if e.name == "AbortError" then ⟨tuneFinally ctx.st, ctx.calls, .aborted⟩
      else ⟨tuneFinally ctx.st, ctx.calls, .fatal⟩

/-- `GitHubFileNode` from `githubService.ts` (the `type` field is renamed
`ftype`). -/
structure GitHubFileNode where
  path : String
  ftype : String
  sha : String
  url : String
deriving DecidableEq

/-- The repository metadata `fetchRepoDetails` returns (the field the
callers read). -/
structure RepoDetails where
  default_branch : String
deriving DecidableEq

/-- Overall outcomes of the remote calls the Import pipeline issues.
`contentRes` is keyed by the file node's `url`. -/
structure ImportEnv where
  detailsRes : Except GErr (Option RepoDetails)
  treeRes : Except GErr (List GitHubFileNode)
  contentRes : String → Except GErr String
  identityRes : Except GErr Identity
  structureRes : Except GErr (List HubPage × List Article)

/-- The ledger seeding and status transition at the top of `handleImport`
(lines 342–353). -/
def importSeed (s : ProjectState) : ProjectState :=
  { s with status := .importing,
           executionPlan :=
             [mkTask "fetch-info" "リポジトリ情報の検証" .running,
              mkTask "fetch-tree" "ディレクトリ構造のスキャン" .pending,
              mkTask "fetch-content" "主要リソースの取得" .pending,
              mkTask "analyze-brand" "ブランドアイデンティティ解析" .pending,
              mkTask "analyze-structure" "コンテンツ構造の分析" .pending,
              mkGroupTask "fetch-full-content" "全ページの復元" .pending
                "import-restore" "GitHubからの全ページ取得"],
           currentDetail := some "GitHub接続中..." }

/-- The per-hub restoration loop of `handleImport` (lines 377–385): for
each inferred hub, look for a matching scanned file (`path.includes` of
`slug + "/index.html"`, falling back to the root file for the reserved
slug); fetch its content when found, keep the hub bare otherwise.  This
loop performs no token check of its own. -/
def importRestoreLoop (a : AbortSpec) (env : ImportEnv)
    (htmlFiles : List GitHubFileNode) (indexFile : Option GitHubFileNode) :
    List HubPage → List HubPage → RunCtx → StepR (List HubPage)
  | [], acc, ctx => .ok acc ctx
  | hub :: rest, acc, ctx =>
    let matching : Option GitHubFileNode :=
      match htmlFiles.find? (fun f => strContains f.path (hub.slug ++ "/index.html")) with
      | some f => some f
      | none => if hub.slug == "index" then indexFile else none
    match matching with
    | some mf =>
      let ctx1 := updSt ctx fun st =>
        { st with currentDetail := some ("取得中: " ++ hub.slug) }
      StepR.bind (githubCall a "getFileContent" (env.contentRes mf.url) ctx1) fun content ctx2 =>
        importRestoreLoop a env htmlFiles indexFile rest
          (acc ++ [{ hub with html := some content }]) ctx2
    | none => importRestoreLoop a env htmlFiles indexFile rest (acc ++ [hub]) ctx

/-- `handleImport` (lines 337–395).  `importRepo` and `importToken` are the
modal's input fields. -/
def handleImport (s : ProjectState) (importRepo importToken : String)
    (env : ImportEnv) (a : AbortSpec) : RunResult :=
  if importRepo == "" || importToken == "" then ⟨s, [], .skipped⟩
  else
    let ctx0 : RunCtx := ⟨importSeed s, 0, []⟩
    let config0 : GitHubConfig := ⟨importToken, importRepo, "main", "docs"⟩
    let body : StepR Unit :=
      StepR.bind (githubCall a "fetchRepoDetails" env.detailsRes ctx0) fun details ctx1 =>
      let config1 := match details with
        | some d => { config0 with branch := d.default_branch }
        | none => config0
      let ctx2 := setTaskCtx ctx1 "fetch-info" .completed
      let ctx3 := setTaskCtx ctx2 "fetch-tree" .running
      StepR.bind (githubCall a "fetchRepoStructure" env.treeRes ctx3) fun tree ctx4 =>
      let htmlFiles := tree.filter fun f => strEndsWith f.path ".html"
      let ctx5 := setTaskCtx ctx4 "fetch-tree" .completed
      let ctx6 := setTaskCtx ctx5 "fetch-content" .running
      let indexFile := htmlFiles.find? fun f => strEndsWith f.path "index.html"
      -- `indexFile ? await fetchFileContent(...) : ""`: the remote call is
      -- performed only when an index file exists.
      StepR.bind (match indexFile with
                  | some f => githubCall a "getFileContent" (env.contentRes f.url) ctx6
                  | none => .ok "" ctx6) fun _indexHtml ctx7 =>
      let ctx8 := setTaskCtx ctx7 "fetch-content" .completed
      let ctx9 := setTaskCtx ctx8 "analyze-brand" .running
      StepR.bind (geminiCall a "analyzeSiteIdentity" env.identityRes ctx9) fun identity ctx10 =>
      let ctx11 := setTaskCtx ctx10 "analyze-brand" .completed
      let ctx12 := setTaskCtx ctx11 "analyze-structure" .running
      StepR.bind (geminiCall a "analyzeRepoStructure" env.structureRes ctx12) fun hubsArts ctx13 =>
      let ctx14 := setTaskCtx ctx13 "analyze-structure" .completed
      let ctx15 := setTaskCtx ctx14 "fetch-full-content" .running
      StepR.bind (importRestoreLoop a env htmlFiles indexFile hubsArts.1 [] ctx15) fun finalHubs ctx16 =>
      let ctx17 := setTaskCtx ctx16 "fetch-full-content" .completed
      let ctx18 := updSt ctx17 fun st =>
        { st with identity := some identity, githubConfig := config1,
                  status := .ready, hubs := finalHubs, articles := hubsArts.2,
                  executionPlan := [], currentDetail := none }
      .ok () ctx18
    match body with
    | .ok _ ctx => ⟨ctx.st, ctx.calls, .success⟩
    | .ret ctx => ⟨ctx.st, ctx.calls, .aborted⟩
    | .exn e ctx =>
      if e.name == "AbortError" then ⟨ctx.st, ctx.calls, .aborted⟩
      else ⟨fatalResetIdle ctx.st, ctx.calls, .fatal⟩

/-- Strip leading and trailing slashes (`replace(/^\/+|\/+$/g, '')`). -/
def trimSlashes (s : String) : String :=
  ⟨((s.data.dropWhile (· == '/')).reverse.dropWhile (· == '/')).reverse⟩

/-- The Pages source path computation of `enablePages` (`githubService.ts`
line 86): `"/docs"` when the cleaned configured path is `docs`, `"/"`
otherwise. -/
def pagesSourcePath (cfg : GitHubConfig) : String :=
  if trimSlashes cfg.path == "docs" then "/docs" else "/"

/-- Result of one `enablePages` call: its overall outcome and whether the
non-ok, non-409 warning branch was taken. -/
structure EnableOutcome where
  result : Except GErr Unit
  warned : Bool

/-- `enablePages` from `githubService.ts` (lines 80–101): performs the POST
through `fetchWithRetry` (3 attempts); once a response comes back, a non-ok
status other than 409 is only logged as a warning — the function returns
normally.  It raises exactly when `fetchWithRetry` raises (transport errors
and 429/≥500 statuses after retries, or cancellation). -/
def enablePages (_cfg : GitHubConfig)
    (attempts : Nat → Except GErr HttpResponse) (tAbort : Option Nat) :
    EnableOutcome :=
  match (fetchWithRetry attempts githubRetries tAbort).result with
  | .ok res => ⟨.ok (), !res.ok && res.status != 409⟩
  | .error e => ⟨.error e, false⟩

/-- The file path of a hub in `publishToGithub` (line 118): the reserved
slug maps to the root document. -/
def hubPath (h : HubPage) : String :=
  if h.slug == "index" then "index.html" else h.slug ++ "/index.html"

/-- The file path of an article in `publishToGithub` (lines 123–126). -/
def articlePath (hubs : List HubPage) (a : Article) : String :=
  match hubs.find? (fun h => h.id == a.hubId) with
  | some parent =>
    if parent.slug != "index" then parent.slug ++ "/" ++ a.slug ++ ".html"
    else "articles/" ++ a.slug ++ ".html"
  | none => "articles/" ++ a.slug ++ ".html"

/-- The upload list built by `publishToGithub` (lines 116–130): every hub,
then every article, then — when the readme text is non-empty (JavaScript
truthiness) — `README.md`. -/
def publishFiles (hubs : List HubPage) (articles : List Article)
    (readme : String) : List (String × String) :=
  hubs.map (fun h => (hubPath h, h.html.getD ""))
    ++ articles.map (fun a => (articlePath hubs a, a.contentHtml.getD ""))
    ++ (if readme == "" then [] else [("README.md", readme)])

/-- Overall outcomes of the remote calls the Publish pipeline issues.
`checkRes k` is the stored-revision lookup for the `k`-th file
(`.ok (some sha)` an ok response carrying a revision, `.ok none` a non-ok
response, `.error` a thrown failure — all three leave the loop running
since the lookup sits in a `try … catch {}`); `putRes k` is the `k`-th
upload. -/
structure PublishEnv where
  detailsRes : Except GErr (Option RepoDetails)
  createRes : Except GErr Unit
  readmeRes : Except GErr String
  checkRes : Nat → Except GErr (Option String)
  putRes : Nat → Except GErr Unit
  enableRes : Except GErr Unit

/-- The revision lookup with its swallowing `catch {}` (lines 137–143):
any thrown error — `AbortError` included — is discarded and the loop goes
on with an empty revision marker. -/
def githubCallCaught (a : AbortSpec) (name : String)
    (res : Except GErr (Option String)) (ctx : RunCtx) :
    Option String × RunCtx :=
  match githubCall a name res ctx with
  | .ok v ctx' => (v, ctx')
  | .exn _ ctx' => (none, ctx')
  | .ret ctx' => (none, ctx')

/-- The per-file upload loop of `publishToGithub` (lines 132–160): token
check (throwing, not returning), progress callback writing the detail line,
swallowed revision lookup, then the upload itself, which throws on a non-ok
response. -/
def pubLoop (a : AbortSpec) (env : PublishEnv) :
    List (String × String) → Nat → RunCtx → StepR Unit
  | [], _, ctx => .ok () ctx
  | (path, _) :: rest, k, ctx =>
    if flagSet a ctx.awaits then .exn abortErrGh ctx
    else
      let ctx1 := updSt ctx fun st =>
        { st with currentDetail := some ("送信中: " ++ path) }
      let shaCtx := githubCallCaught a "getFile" (env.checkRes k) ctx1
      StepR.bind (githubCall a "putFile" (env.putRes k) shaCtx.2) fun _ ctx3 =>
        pubLoop a env rest (k + 1) ctx3

/-- The ledger seeding and status transition at the top of `handlePublish`
(lines 400–407); note that the detail line is not touched here. -/
def publishSeed (s : ProjectState) : ProjectState :=
  { s with status := .creating_repo,
           executionPlan :=
             [mkTask "check-repo" "リポジトリ情報の検証" .running,
              mkGroupTask "push-files" "ファイルのプッシュ" .pending
                "push-group" "全ファイルのアップロード",
              mkTask "enable-pages" "GitHub Pages有効化" .pending] }

/-- `handlePublish` (lines 397–426). -/
def handlePublish (s : ProjectState) (env : PublishEnv) (a : AbortSpec) :
    RunResult :=
  if s.githubConfig.repo == "" || s.githubConfig.token == "" then ⟨s, [], .skipped⟩
  else
    let ctx0 : RunCtx := ⟨publishSeed s, 0, []⟩
    let body : StepR Unit :=
      StepR.bind (githubCall a "fetchRepoDetails" env.detailsRes ctx0) fun details ctx1 =>
      StepR.bind (match details with
                  | none => githubCall a "createRepo" env.createRes ctx1
                  | some _ => .ok () ctx1) fun _ ctx2 =>
      let ctx3 := setTaskCtx ctx2 "check-repo" .completed
      let ctx4 := setTaskCtx ctx3 "push-files" .running
      StepR.bind (geminiCallNoSignal a "generateReadme" env.readmeRes ctx4) fun readme ctx5 =>
      let files := publishFiles s.hubs s.articles readme
      StepR.bind (pubLoop a env files 0 ctx5) fun _ ctx6 =>
      let ctx7 := setTaskCtx ctx6 "push-files" .completed
      let ctx8 := setTaskCtx ctx7 "enable-pages" .running
      StepR.bind (githubCall a "enablePages" env.enableRes ctx8) fun _ ctx9 =>
      let ctx10 := setTaskCtx ctx9 "enable-pages" .completed
      let ctx11 := updSt ctx10 fun st =>
        { st with status := .deployed, executionPlan := [], currentDetail := none }
      .ok () ctx11
    match body with
    | .ok _ ctx => ⟨ctx.st, ctx.calls, .success⟩
    | .ret ctx => ⟨ctx.st, ctx.calls, .aborted⟩
    | .exn e ctx =>
      if e.name == "AbortError" then ⟨ctx.st, ctx.calls, .aborted⟩
      else ⟨fatalResetReady ctx.st, ctx.calls, .fatal⟩

/-! ## Fixtures for concrete runs -/

/-- A sample brand identity. -/
def sampleIdentity : Identity :=
  ⟨"My Site", "mysite", "a mission", "a description", "#4f46e5", some .Professional⟩

/-- A sample hosting configuration. -/
def sampleConfig : GitHubConfig := ⟨"tok", "user/repo", "main", "docs"⟩

/-- Two sample hubs carrying markup. -/
def hubOne : HubPage := ⟨"h1", "Hub One", "one", "d1", some "A"⟩

/-- Second sample hub. -/
def hubTwo : HubPage := ⟨"h2", "Hub Two", "two", "d2", some "B"⟩

/-- A fresh project state: no identity, resting at `idle`. -/
def freshState : ProjectState :=
  ⟨"op", .Personal, none, [], [], "", "", none, .idle, [], none, sampleConfig⟩

/-- A project state after a completed build: identity present, two hubs,
resting at `ready`. -/
def readyState : ProjectState :=
  { freshState with identity := some sampleIdentity, hubs := [hubOne, hubTwo],
                    status := .ready }

/-- A non-retryable failure (plain error, status 400). -/
def fatalErrFx : GErr := ⟨"Error", "boom", 400⟩

/-- A retryable transport failure. -/
def netErrFx : GErr := ⟨"TypeError", "Failed to fetch", 0⟩

/-! ## Retry-policy lemmas -/

/-- One step of the attempt loop on a retryable failure with attempts
remaining: recurse with the delay multiplied by `1.5`. -/
theorem retryGo_succ_retryable (op : Nat → Except GErr T) (e : GErr)
    (i r : Nat) (delay : ℚ) (hop : op i = .error e)
    (hret : isRetryable e = true) (hr : r ≠ 0) :
    retryGo op none (r + 1) i delay =
      ⟨(retryGo op none r (i + 1) (delay * (3 / 2))).result,
       (retryGo op none r (i + 1) (delay * (3 / 2))).invocations + 1,
       delay :: (retryGo op none r (i + 1) (delay * (3 / 2))).waits⟩ := by
  simp [retryGo, abortedAt, hop, hret, hr]

/-- The last attempt of the loop rethrows its own failure, retryable or
not. -/
theorem retryGo_one (op : Nat → Except GErr T) (e : GErr) (i : Nat)
    (delay : ℚ) (hop : op i = .error e) :
    retryGo op none 1 i delay = ⟨.error e, 1, []⟩ := by
  simp [retryGo, abortedAt, hop]

/-- The attempt loop on an operation that fails retryably on every
invocation: it runs all remaining attempts, performs the geometric waits
and ends with the last failure (rethrown as-is). -/
theorem retryGo_allRetryable (op : Nat → Except GErr T) (errF : Nat → GErr)
    (hop : ∀ j, op j = .error (errF j))
    (hret : ∀ j, isRetryable (errF j) = true) :
    ∀ r i delay, 1 ≤ r →
      (retryGo op none r i delay).result = .error (errF (i + r - 1)) ∧
      (retryGo op none r i delay).invocations = r ∧
      (retryGo op none r i delay).waits =
        (List.range (r - 1)).map (fun k => delay * (3 / 2) ^ k) := by
  intro r
  induction r with
  | zero => intro i delay h; omega
  | succ r ih =>
    intro i delay _
    cases r with
    | zero =>
      rw [retryGo_one op (errF i) i delay (hop i)]
      simp
    | succ r' =>
      rw [retryGo_succ_retryable op (errF i) i (r' + 1) delay (hop i) (hret i)
        (by omega)]
      have hrec := ih (i + 1) (delay * (3 / 2)) (by omega)
      refine ⟨?_, ?_, ?_⟩
      · rw [show (⟨(retryGo op none (r' + 1) (i + 1) (delay * (3 / 2))).result,
            (retryGo op none (r' + 1) (i + 1) (delay * (3 / 2))).invocations + 1,
            delay :: (retryGo op none (r' + 1) (i + 1) (delay * (3 / 2))).waits⟩ :
            RetryOutcome T).result =
            (retryGo op none (r' + 1) (i + 1) (delay * (3 / 2))).result from rfl]
        have h1 := hrec.1
        rw [show i + 1 + (r' + 1) - 1 = i + (r' + 1 + 1) - 1 from by omega] at h1
        exact h1
      · rw [show (⟨(retryGo op none (r' + 1) (i + 1) (delay * (3 / 2))).result,
            (retryGo op none (r' + 1) (i + 1) (delay * (3 / 2))).invocations + 1,
            delay :: (retryGo op none (r' + 1) (i + 1) (delay * (3 / 2))).waits⟩ :
            RetryOutcome T).invocations =
            (retryGo op none (r' + 1) (i + 1) (delay * (3 / 2))).invocations + 1 from rfl]
        rw [hrec.2.1]
      · rw [show (⟨(retryGo op none (r' + 1) (i + 1) (delay * (3 / 2))).result,
            (retryGo op none (r' + 1) (i + 1) (delay * (3 / 2))).invocations + 1,
            delay :: (retryGo op none (r' + 1) (i + 1) (delay * (3 / 2))).waits⟩ :
            RetryOutcome T).waits =
            delay :: (retryGo op none (r' + 1) (i + 1) (delay * (3 / 2))).waits from rfl]
        rw [hrec.2.2]
        have h1 : r' + 1 + 1 - 1 = (r' + 1 - 1) + 1 := by omega
        rw [h1, List.range_succ_eq_map]
        simp only [List.map_cons, List.map_map, pow_zero, mul_one,
          List.cons.injEq, true_and]
        apply List.map_congr_left
        intro k _
        simp only [Function.comp_apply, pow_succ]
        ring

/-- One step of the attempt loop under an arbitrary token schedule, when
neither surrounding check observes the abort. -/
theorem retryGo_step (op : Nat → Except GErr T) (tA : Option Nat) (e : GErr)
    (i r : Nat) (delay : ℚ)
    (hpre : abortedAt tA (2 * i) = false)
    (hpost : abortedAt tA (2 * i + 1) = false)
    (hop : op i = .error e) (hret : isRetryable e = true) (hr : r ≠ 0) :
    retryGo op tA (r + 1) i delay =
      ⟨(retryGo op tA r (i + 1) (delay * (3 / 2))).result,
       (retryGo op tA r (i + 1) (delay * (3 / 2))).invocations + 1,
       delay :: (retryGo op tA r (i + 1) (delay * (3 / 2))).waits⟩ := by
  simp [retryGo, hpre, hpost, hop, hret, hr]

/-- The attempt loop when the token is set while attempt `k` is in flight
and attempt `k` fails: the post-failure check observes it, the run ends
with `AbortError` after `k - i + 1` invocations, with no retry. -/
theorem retryGo_abortAfterFail (op : Nat → Except GErr T) (k : Nat) (e : GErr)
    (hfail : op k = .error e)
    (hpre : ∀ j, j < k → ∃ e', op j = .error e' ∧ isRetryable e' = true) :
    ∀ r i delay, i ≤ k → k < i + r →
      (retryGo op (some (2 * k + 1)) r i delay).result = .error abortErr ∧
      (retryGo op (some (2 * k + 1)) r i delay).invocations = k - i + 1 := by
  intro r
  induction r with
  | zero => intro i delay h1 h2; omega
  | succ r ih =>
    intro i delay hik hk
    by_cases hi : i = k
    · subst hi
      have hprec : abortedAt (some (2 * i + 1)) (2 * i) = false := by
        simp [abortedAt]
      have hpostc : abortedAt (some (2 * i + 1)) (2 * i + 1) = true := by
        simp [abortedAt]
      refine ⟨?_, ?_⟩ <;> simp [retryGo, hprec, hpostc, hfail]
    · have hik' : i < k := by omega
      obtain ⟨e', hop', hret'⟩ := hpre i hik'
      have hprec : abortedAt (some (2 * k + 1)) (2 * i) = false := by
        simp [abortedAt]; omega
      have hpostc : abortedAt (some (2 * k + 1)) (2 * i + 1) = false := by
        simp [abortedAt]; omega
      have hr : r ≠ 0 := by omega
      rw [retryGo_step op _ e' i r delay hprec hpostc hop' hret' hr]
      obtain ⟨h1, h2⟩ := ih (i + 1) (delay * (3 / 2)) (by omega) (by omega)
      refine ⟨?_, ?_⟩
      · show (retryGo op (some (2 * k + 1)) r (i + 1) (delay * (3 / 2))).result =
          .error abortErr
        exact h1
      · show (retryGo op (some (2 * k + 1)) r (i + 1) (delay * (3 / 2))).invocations + 1 =
          k - i + 1
        rw [h2]; omega

/-- C3.  For every `maxAttempts = N ≥ 1` and every operation whose every
invocation fails with a retryable error, `retryWithBackoff` invokes the
operation exactly `N` times and then raises the last failure (the outcome
the specification's taxonomy labels `ExhaustedRetries`; the code rethrows
the final attempt's own error). -/
theorem retry_exhaustion_C3 {T : Type} (op : Nat → Except GErr T)
    (errF : Nat → GErr) (N : Nat) (d : ℚ) (hN : 1 ≤ N)
    (hop : ∀ j, op j = .error (errF j))
    (hret : ∀ j, isRetryable (errF j) = true) :
    (retryWithBackoff op N d none true).invocations = N ∧
    (retryWithBackoff op N d none true).result = .error (errF (N - 1)) := by
  have h := retryGo_allRetryable op errF hop hret N 0 d hN
  unfold retryWithBackoff
  simp only [Bool.not_true, Bool.false_eq_true, if_false]
  exact ⟨h.2.1, by simpa using h.1⟩

/-- Witness for C3 at `N = 2` and a constantly transport-failing
operation. -/
theorem retry_exhaustion_C3_witness :
    (retryWithBackoff (fun _ => (.error netErrFx : Except GErr Nat)) 2 2000
      none true).invocations = 2 ∧
    (retryWithBackoff (fun _ => (.error netErrFx : Except GErr Nat)) 2 2000
      none true).result = .error netErrFx :=
  retry_exhaustion_C3 (fun _ => .error netErrFx) (fun _ => netErrFx) 2 2000
    (by decide) (fun _ => rfl) (fun _ => (by decide : isRetryable netErrFx = true))

/-- C5.  A token set before any attempt makes `retryWithBackoff` fail with
`AbortError` after zero invocations; a token set while attempt `k` is in
flight, when that attempt fails, also fails the call with `AbortError`
immediately — `k + 1` invocations regardless of how many attempts remain,
never retried. -/
theorem retry_cancellation_C5 {T : Type} (op : Nat → Except GErr T)
    (N : Nat) (d : ℚ) (hN : 1 ≤ N) :
    ((retryWithBackoff op N d (some 0) true).result = .error abortErr ∧
     (retryWithBackoff op N d (some 0) true).invocations = 0) ∧
    (∀ k e, k < N → op k = .error e →
      (∀ j, j < k → ∃ e', op j = .error e' ∧ isRetryable e' = true) →
      (retryWithBackoff op N d (some (2 * k + 1)) true).result = .error abortErr ∧
      (retryWithBackoff op N d (some (2 * k + 1)) true).invocations = k + 1) := by
  constructor
  · match N, hN with
    | r + 1, _ => constructor <;> simp [retryWithBackoff, retryGo, abortedAt]
  · intro k e hk hfail hpre
    have h := retryGo_abortAfterFail op k e hfail hpre N 0 d (by omega) (by omega)
    unfold retryWithBackoff
    simp only [Bool.not_true, Bool.false_eq_true, if_false]
    exact ⟨h.1, by simpa using h.2⟩

/-- Witness for C5: abort before any attempt (zero invocations), and abort
observed after the second attempt's failure (two invocations out of
`maxAttempts = 3`). -/
theorem retry_cancellation_C5_witness :
    ((retryWithBackoff (fun _ => (.error netErrFx : Except GErr Nat)) 3 2000
       (some 0) true).invocations = 0) ∧
    ((retryWithBackoff (fun _ => (.error netErrFx : Except GErr Nat)) 3 2000
       (some 3) true).invocations = 2) :=
  ⟨(retry_cancellation_C5 (fun _ => .error netErrFx) 3 2000 (by decide)).1.2,
   ((retry_cancellation_C5 (fun _ => .error netErrFx) 3 2000 (by decide)).2 1
     netErrFx (by decide) rfl
     (fun _ _ => ⟨netErrFx, rfl, (by decide : isRetryable netErrFx = true)⟩)).2⟩

/-- C4 (amended).  The generation-service calls go through
`retryWithBackoff`, whose policy is `maxAttempts = 5`,
`initialDelay = 2000 ms` with the wait multiplied by `1.5` per retry and no
cap; the hosting-service calls go through `fetchWithRetry`, whose policy is
3 attempts with waits of `1000 · 2^i` ms — not the 5/2000/×1.5 policy. -/
theorem retry_policy_C4_amended :
    (geminiMaxRetries = 5 ∧ geminiInitialDelay = 2000) ∧
    (∀ (T : Type) (op : Nat → Except GErr T) (errF : Nat → GErr) (N : Nat)
       (d : ℚ), 1 ≤ N →
       (∀ j, op j = .error (errF j)) → (∀ j, isRetryable (errF j) = true) →
       (retryWithBackoff op N d none true).waits =
         (List.range (N - 1)).map (fun k => d * (3 / 2) ^ k)) ∧
    githubRetries = 3 ∧
    (∀ (f : Nat → Except GErr HttpResponse) (errF : Nat → GErr),
       (∀ j, f j = .error (errF j)) → (∀ j, (errF j).name ≠ "AbortError") →
       (fetchWithRetry f githubRetries none).invocations = 3 ∧
       (fetchWithRetry f githubRetries none).waits = [1000, 2000]) := by
  refine ⟨⟨rfl, rfl⟩, ?_, rfl, ?_⟩
  · intro T op errF N d hN hop hret
    have h := retryGo_allRetryable op errF hop hret N 0 d hN
    unfold retryWithBackoff
    simp only [Bool.not_true, Bool.false_eq_true, if_false]
    exact h.2.2
  · intro f errF hop hname
    have hb : ∀ j, ((errF j).name == "AbortError") = false := by
      intro j
      rw [beq_eq_false_iff_ne]
      exact hname j
    constructor <;>
      simp [fetchWithRetry, githubRetries, fetchRetryGo, abortedAt,
        hop 0, hop 1, hop 2, hb 0, hb 1, hb 2]

/-- Counterexample to C4 as stated: the hosting-service wrapper, at the
`retries = 3` every `githubService.ts` call site passes, invokes a
constantly transport-failing fetch exactly 3 times (not 5) and waits
1000 ms then 2000 ms (not an initial 2000 ms multiplied by 1.5). -/
theorem retry_policy_C4_cex :
    (fetchWithRetry (fun _ => .error netErrFx) githubRetries none).invocations = 3 ∧
    (3 : Nat) ≠ 5 ∧
    (fetchWithRetry (fun _ => .error netErrFx) githubRetries none).waits = [1000, 2000] ∧
    ((1000 : Nat) ≠ 2000 ∧ (2000 : Nat) ≠ 3000) := by
  refine ⟨rfl, by decide, rfl, by decide, by decide⟩

/-- Witness for the amended C4: the default generation policy waits
2000, 3000, 4500, 6750 ms across 5 exhausted attempts, and the hosting
wrapper performs 3 invocations. -/
theorem retry_policy_C4_amended_witness :
    (retryWithBackoff (fun _ => (.error netErrFx : Except GErr Nat)) 5 2000
      none true).waits = [2000, 3000, 4500, 6750] ∧
    (fetchWithRetry (fun _ => .error netErrFx) githubRetries none).invocations = 3 := by
  constructor
  · have h := retry_policy_C4_amended.2.1 Nat (fun _ => .error netErrFx)
      (fun _ => netErrFx) 5 2000 (by decide) (fun _ => rfl)
      (fun _ => (by decide : isRetryable netErrFx = true))
    rw [h]
    norm_num [List.range_succ]
  · exact (retry_policy_C4_amended.2.2.2 (fun _ => .error netErrFx)
      (fun _ => netErrFx) (fun _ => rfl)
      (fun _ => (by decide : netErrFx.name ≠ "AbortError"))).1

/-- C6 (amended).  Every status is covered by at most one workflow
definition, and every status except `tuning_design` lies in at most one
step overall; `tuning_design` however appears in both steps of the tune
definition, so `getCurrentWorkflowInfo` — which returns the first match —
always resolves it to the planning step (index 0). -/
theorem workflow_partition_C6_amended :
    stepOccurrences .tuning_design = 2 ∧
    (∀ s : Status, s ≠ .tuning_design → stepOccurrences s ≤ 1) ∧
    (∀ s : Status, defOccurrences s ≤ 1) ∧
    getCurrentWorkflowInfo .tuning_design = some (tuneWorkflow, 0) := by
  refine ⟨by decide, ?_, ?_, by decide⟩
  · intro s hs
    cases s <;> first | exact absurd rfl hs | decide
  · intro s; cases s <;> decide

/-- Witness for the amended C6 at the statuses `ready` and `deployed`. -/
theorem workflow_partition_C6_amended_witness :
    stepOccurrences Status.ready ≤ 1 ∧ defOccurrences Status.deployed ≤ 1 :=
  ⟨workflow_partition_C6_amended.2.1 .ready (by decide),
   workflow_partition_C6_amended.2.2.1 .deployed⟩

/-- Counterexample to C6 as stated: the status `tuning_design` is
contained in the status sets of both steps of the tune workflow, so it
lies in two steps, not at most one. -/
theorem workflow_partition_C6_cex :
    (tuneWorkflow.steps.map fun st => st.statuses.contains Status.tuning_design)
      = [true, true] ∧
    stepOccurrences .tuning_design = 2 ∧
    ¬ (∀ s : Status, stepOccurrences s ≤ 1) :=
  ⟨by decide, by decide, fun h => absurd (h .tuning_design) (by decide)⟩

/-- C9.  `setTaskStatus` preserves length and order; it is the identity
when no task carries the id; position-wise, the task at a position keeps
everything but its status, which changes exactly when its id matches; and
under the ledger invariant that ids are unique, every position other than
the matching one is completely unchanged. -/
theorem setTaskStatus_frame_C9 (plan : List ExecutionTask) (id : String)
    (s : TaskStatus) :
    (setTaskStatus plan id s).length = plan.length ∧
    ((∀ t ∈ plan, t.id ≠ id) → setTaskStatus plan id s = plan) ∧
    (∀ j (h : j < plan.length),
      (setTaskStatus plan id s).get ⟨j, by simpa [setTaskStatus] using h⟩ =
        if (plan.get ⟨j, h⟩).id = id then { plan.get ⟨j, h⟩ with status := s }
        else plan.get ⟨j, h⟩) ∧
    ((plan.map (·.id)).Nodup →
      ∀ j (h : j < plan.length) j' (h' : j' < plan.length),
        (plan.get ⟨j, h⟩).id = id → j' ≠ j →
        (setTaskStatus plan id s).get ⟨j', by simpa [setTaskStatus] using h'⟩ =
          plan.get ⟨j', h'⟩) := by
  have hpt : ∀ j (h : j < plan.length),
      (setTaskStatus plan id s).get ⟨j, by simpa [setTaskStatus] using h⟩ =
        if (plan.get ⟨j, h⟩).id = id then { plan.get ⟨j, h⟩ with status := s }
        else plan.get ⟨j, h⟩ := by
    intro j h
    simp [setTaskStatus, List.get_eq_getElem, List.getElem_map, beq_iff_eq]
  refine ⟨by simp [setTaskStatus], ?_, hpt, ?_⟩
  · intro h
    unfold setTaskStatus
    have hc : ∀ t ∈ plan, (if t.id == id then { t with status := s } else t) = t := by
      intro t ht
      have := h t ht
      simp [beq_iff_eq, this]
    exact (List.map_congr_left hc).trans (List.map_id _)
  · intro hnd j h j' h' hid hne
    rw [hpt j' h']
    have hne2 : (plan.get ⟨j', h'⟩).id ≠ id := by
      intro heq
      apply hne
      have hm : j < (plan.map (·.id)).length := by simpa using h
      have hm' : j' < (plan.map (·.id)).length := by simpa using h'
      have hg : (plan.map (·.id)).get ⟨j', hm'⟩ = (plan.map (·.id)).get ⟨j, hm⟩ := by
        simp only [List.get_eq_getElem, List.getElem_map]
        simp only [List.get_eq_getElem] at heq hid
        rw [heq, hid]
      have := (List.Nodup.get_inj_iff hnd).1 hg
      simpa using this
    rw [if_neg hne2]

/-- A small concrete ledger. -/
def fxPlan : List ExecutionTask := [mkTask "a" "A" .pending, mkTask "b" "B" .pending]

/-- Witness for C9: length preservation on a hit, identity on a miss. -/
theorem setTaskStatus_frame_C9_witness :
    (setTaskStatus fxPlan "b" .running).length = fxPlan.length ∧
    setTaskStatus fxPlan "zzz" .running = fxPlan :=
  ⟨(setTaskStatus_frame_C9 fxPlan "b" .running).1,
   (setTaskStatus_frame_C9 fxPlan "zzz" .running).2.1 (by decide)⟩

/-! ## Pipeline exit analysis -/

/-- Abort schedules under which an aborted in-flight call does not
complete (the common case; a generation call that still resolves after the
abort is the exception analysed separately). -/
def okAbort (a : AbortSpec) : Prop := a = .never ∨ ∃ t, a = .during t false

/-- The post-cancellation resting shape: empty ledger, cleared detail, and
the last known-good resting status for the identity currently in the
state. -/
def restingAfterAbort (st : ProjectState) : Prop :=
  st.executionPlan = [] ∧ st.currentDetail = none ∧
  st.status = (if st.identity.isSome then .ready else .idle)

/-- `handleAbort`'s reset establishes the resting shape. -/
theorem restingAfterAbort_abortReset (st : ProjectState) :
    restingAfterAbort (abortReset st) := by
  refine ⟨rfl, rfl, ?_⟩
  simp [abortReset]

/-- Before any remote call has started, the flag is unset. -/
theorem flagSet_zero (a : AbortSpec) : flagSet a 0 = false := by
  cases a <;> simp [flagSet]

/-- Wellformedness of a modelled remote outcome: a failure produced by the
service itself is never named `AbortError` (that name is reserved for the
cancellation token in this code base). -/
def wfRes (res : Except GErr α) : Prop :=
  ∀ e, res = .error e → e.name ≠ "AbortError"

/-- `setTaskCtx` does not change counters, identity, status, detail, hubs
or articles, and keeps an empty ledger empty. -/
theorem setTaskCtx_resting {st : ProjectState} (h : restingAfterAbort st)
    (id : String) (s : TaskStatus) :
    restingAfterAbort { st with executionPlan := setTaskStatus st.executionPlan id s } := by
  obtain ⟨h1, h2, h3⟩ := h
  exact ⟨by rw [h1]; rfl, h2, h3⟩

/-- Case analysis of a generation call under a schedule in `okAbort`, at a
point where the flag is not yet set. -/
theorem geminiCall_cases (a : AbortSpec) (nm : String) (res : Except GErr α)
    (ctx : RunCtx) (ha : okAbort a) (hflag : flagSet a ctx.awaits = false)
    (hwf : wfRes res) :
    (∃ v ctx', res = .ok v ∧ geminiCall a nm res ctx = .ok v ctx' ∧
      ctx'.st = ctx.st ∧ flagSet a ctx'.awaits = false ∧
      ctx'.calls = ctx.calls ++ [nm]) ∨
    (∃ e ctx', geminiCall a nm res ctx = .exn e ctx' ∧ e.name ≠ "AbortError" ∧
      ctx'.st = ctx.st ∧ ctx'.calls = ctx.calls ++ [nm]) ∨
    (∃ ctx', geminiCall a nm res ctx = .exn abortErr ctx' ∧
      restingAfterAbort ctx'.st ∧ ctx'.st.identity = ctx.st.identity ∧
      ctx'.st.hubs = ctx.st.hubs ∧ ctx'.st.articles = ctx.st.articles) := by
  rcases ha with rfl | ⟨t, rfl⟩
  · cases res with
    | ok v => exact Or.inl ⟨v, _, rfl, rfl, rfl, rfl, rfl⟩
    | error e => exact Or.inr (Or.inl ⟨e, _, rfl, hwf e rfl, rfl, rfl⟩)
  · have ht : ¬ t < ctx.awaits := by
      simpa [flagSet] using hflag
    by_cases he : t = ctx.awaits
    · have hcall : geminiCall (AbortSpec.during t false) nm res ctx = .exn abortErr { ctx with st := abortReset ctx.st, awaits := ctx.awaits + 1, calls := ctx.calls ++ [nm] } := by
        simp [geminiCall, ht, he]
      refine Or.inr (Or.inr ⟨_, hcall, restingAfterAbort_abortReset ctx.st, ?_, ?_, ?_⟩)
      · simp [abortReset]
      · simp [abortReset]
      · simp [abortReset]
    · have hbeq : (t == ctx.awaits) = false := by
        simpa using he
      cases res with
      | ok v =>
        have hcall : geminiCall (AbortSpec.during t false) nm (.ok v : Except GErr α) ctx = .ok v { ctx with awaits := ctx.awaits + 1, calls := ctx.calls ++ [nm] } := by
          simp [geminiCall, ht, hbeq]
        refine Or.inl ⟨v, _, rfl, hcall, rfl, ?_, rfl⟩
        simp [flagSet]
        omega
      | error e =>
        have hcall : geminiCall (AbortSpec.during t false) nm (.error e : Except GErr α) ctx = .exn e { ctx with awaits := ctx.awaits + 1, calls := ctx.calls ++ [nm] } := by
          simp [geminiCall, ht, hbeq]
        exact Or.inr (Or.inl ⟨e, _, hcall, hwf e rfl, rfl, rfl⟩)

/-- Case analysis of a hosting call under a schedule in `okAbort`, at a
point where the flag is not yet set. -/
theorem githubCall_cases (a : AbortSpec) (nm : String) (res : Except GErr α)
    (ctx : RunCtx) (ha : okAbort a) (hflag : flagSet a ctx.awaits = false)
    (hwf : wfRes res) :
    (∃ v ctx', res = .ok v ∧ githubCall a nm res ctx = .ok v ctx' ∧
      ctx'.st = ctx.st ∧ flagSet a ctx'.awaits = false ∧
      ctx'.calls = ctx.calls ++ [nm]) ∨
    (∃ e ctx', githubCall a nm res ctx = .exn e ctx' ∧ e.name ≠ "AbortError" ∧
      ctx'.st = ctx.st ∧ ctx'.calls = ctx.calls ++ [nm]) ∨
    (∃ ctx', githubCall a nm res ctx = .exn abortErrGh ctx' ∧
      restingAfterAbort ctx'.st ∧ ctx'.st.identity = ctx.st.identity ∧
      ctx'.st.hubs = ctx.st.hubs ∧ ctx'.st.articles = ctx.st.articles) := by
  rcases ha with rfl | ⟨t, rfl⟩
  · cases res with
    | ok v => exact Or.inl ⟨v, _, rfl, rfl, rfl, rfl, rfl⟩
    | error e => exact Or.inr (Or.inl ⟨e, _, rfl, hwf e rfl, rfl, rfl⟩)
  · have ht : ¬ t < ctx.awaits := by
      simpa [flagSet] using hflag
    by_cases he : t = ctx.awaits
    · have hcall : githubCall (AbortSpec.during t false) nm res ctx = .exn abortErrGh { ctx with st := abortReset ctx.st, awaits := ctx.awaits + 1, calls := ctx.calls ++ [nm] } := by
        simp [githubCall, ht, he]
      refine Or.inr (Or.inr ⟨_, hcall, restingAfterAbort_abortReset ctx.st, ?_, ?_, ?_⟩)
      · simp [abortReset]
      · simp [abortReset]
      · simp [abortReset]
    · have hbeq : (t == ctx.awaits) = false := by
        simpa using he
      cases res with
      | ok v =>
        have hcall : githubCall (AbortSpec.during t false) nm (.ok v : Except GErr α) ctx = .ok v { ctx with awaits := ctx.awaits + 1, calls := ctx.calls ++ [nm] } := by
          simp [githubCall, ht, hbeq]
        refine Or.inl ⟨v, _, rfl, hcall, rfl, ?_, rfl⟩
        simp [flagSet]
        omega
      | error e =>
        have hcall : githubCall (AbortSpec.during t false) nm (.error e : Except GErr α) ctx = .exn e { ctx with awaits := ctx.awaits + 1, calls := ctx.calls ++ [nm] } := by
          simp [githubCall, ht, hbeq]
        exact Or.inr (Or.inl ⟨e, _, hcall, hwf e rfl, rfl, rfl⟩)

/-- A hosting call issued after the flag is already set throws `AbortError`
without touching the state. -/
theorem githubCall_flagTrue (a : AbortSpec) (nm : String)
    (res : Except GErr α) (ctx : RunCtx)
    (hflag : flagSet a ctx.awaits = true) :
    ∃ ctx', githubCall a nm res ctx = .exn abortErrGh ctx' ∧
      ctx'.st = ctx.st := by
  cases a with
  | never => simp [flagSet] at hflag
  | during t c =>
    have ht : t < ctx.awaits := by simpa [flagSet] using hflag
    exact ⟨{ ctx with awaits := ctx.awaits + 1 }, by simp [githubCall, ht], rfl⟩

/-- Exit analysis of the Build generation loop under an `okAbort`
schedule: it either completes with one generated hub per input hub, fails
with the first fatal generation error, or unwinds on cancellation with the
state already reset by `handleAbort`. -/
theorem buildGenLoop_cases (a : AbortSpec) (env : BuildEnv) (ha : okAbort a)
    (hwf : ∀ k, wfRes (env.htmlRes k)) :
    ∀ (hubs : List HubPage) (k : Nat) (acc : List HubPage) (ctx : RunCtx),
      flagSet a ctx.awaits = false →
      (∃ acc' ctx', buildGenLoop a env hubs k acc ctx = .ok acc' ctx' ∧
        flagSet a ctx'.awaits = false ∧ acc'.length = acc.length + hubs.length ∧
        ctx'.st.identity = ctx.st.identity) ∨
      (∃ e ctx', buildGenLoop a env hubs k acc ctx = .exn e ctx' ∧
        e.name ≠ "AbortError" ∧ ctx'.st.identity = ctx.st.identity) ∨
      (∃ ctx', buildGenLoop a env hubs k acc ctx = .exn abortErr ctx' ∧
        restingAfterAbort ctx'.st) := by
  intro hubs
  induction hubs with
  | nil =>
    intro k acc ctx hflag
    exact Or.inl ⟨acc, ctx, rfl, hflag, by simp, rfl⟩
  | cons h rest ih =>
    intro k acc ctx hflag
    simp only [buildGenLoop]
    rw [if_neg (by simp [hflag])]
    set ctx2 := updSt (setTaskCtx ctx ("build-" ++ h.id) TaskStatus.running)
      (fun st => { st with currentDetail := some ("HTMLコーディング中: " ++ h.slug ++ "/index.html") }) with hctx2
    have hflag2 : flagSet a ctx2.awaits = false := hflag
    rcases geminiCall_cases a "generateHtml" (env.htmlRes k) ctx2 ha hflag2 (hwf k) with
      ⟨html, ctx3, _hres, hcall, hst, hflag3, _hcalls⟩ |
      ⟨e, ctx3, hcall, hname, hst, _hcalls⟩ | ⟨ctx3, hcall, hrest2⟩
    · rw [hcall]
      simp only [StepR.bind]
      have hflag4 : flagSet a (setTaskCtx ctx3 ("build-" ++ h.id) TaskStatus.completed).awaits = false := hflag3
      rcases ih (k + 1) (acc ++ [{ h with html := some html }])
          (setTaskCtx ctx3 ("build-" ++ h.id) TaskStatus.completed) hflag4 with
        ⟨acc', ctx', hloop, hfl, hlen, hid⟩ | ⟨e, ctx', hloop, hname, hid⟩ |
        ⟨ctx', hloop, hres'⟩
      · refine Or.inl ⟨acc', ctx', hloop, hfl, ?_, ?_⟩
        · simp at hlen
          simp [hlen]
          omega
        · have h1 : ctx'.st.identity = ctx3.st.identity := hid
          rw [h1, hst]
          rfl
      · refine Or.inr (Or.inl ⟨e, ctx', hloop, hname, ?_⟩)
        have h1 : ctx'.st.identity = ctx3.st.identity := hid
        rw [h1, hst]
        rfl
      · exact Or.inr (Or.inr ⟨ctx', hloop, hres'⟩)
    · rw [hcall]
      simp only [StepR.bind]
      refine Or.inr (Or.inl ⟨e, ctx3, rfl, hname, ?_⟩)
      rw [hst]
      rfl
    · rw [hcall]
      simp only [StepR.bind]
      exact Or.inr (Or.inr ⟨ctx3, rfl, hrest2.1⟩)

/-- Wellformedness of a Build environment: no service failure usurps the
reserved `AbortError` name. -/
def wfBuildEnv (env : BuildEnv) : Prop :=
  wfRes env.identityRes ∧ wfRes env.strategyRes ∧
  (∀ k, wfRes (env.htmlRes k)) ∧ wfRes env.indexRes

/-- The three exit clauses shared by the pipeline runners: a successful
run rests at `succSt` with a cleared ledger and detail line, a fatal run
rests at `fatalSt` likewise, and an aborted run is left in `handleAbort`'s
reset shape. -/
def exitClauses (r : RunResult) (succSt fatalSt : Status) : Prop :=
  (r.exit = .success → r.st.status = succSt ∧ r.st.executionPlan = [] ∧
    r.st.currentDetail = none) ∧
  (r.exit = .fatal → r.st.status = fatalSt ∧ r.st.executionPlan = [] ∧
    r.st.currentDetail = none) ∧
  (r.exit = .aborted → restingAfterAbort r.st)

/-- Build: success rests at `ready`, fatal error at `idle` (whether or not
an identity exists), cancellation at the abort handler's reset. -/
theorem handleInitialBuild_exits (s : ProjectState) (env : BuildEnv)
    (a : AbortSpec) (ha : okAbort a) (hwf : wfBuildEnv env) :
    exitClauses (handleInitialBuild s env a) .ready .idle ∧
    (handleInitialBuild s env a).exit ≠ .skipped := by
  obtain ⟨hwf1, hwf2, hwf3, hwf4⟩ := hwf
  unfold handleInitialBuild
  dsimp only []
  have hflag0 : flagSet a (RunCtx.mk (buildSeed s) 0 []).awaits = false := flagSet_zero a
  have habort : (abortErr.name == "AbortError") = true := by decide
  rcases geminiCall_cases a "generateIdentity" env.identityRes ⟨buildSeed s, 0, []⟩ ha hflag0 hwf1 with
    ⟨idv, ctx1, _h1, hcall1, hst1, hflag1, _hc1⟩ |
    ⟨e1, ctx1, hcall1, hname1, _hst1, _hc1⟩ | ⟨ctx1, hcall1, hra1, _⟩
  · rw [hcall1]
    simp only [StepR.bind]
    set ctx4 := updSt (setTaskCtx (setTaskCtx ctx1 "identity" TaskStatus.completed) "strategy" TaskStatus.running) (fun st => { st with identity := some idv, status := Status.generating_strategy, currentDetail := some "サイト構成案を生成中..." }) with hctx4
    have hflag4 : flagSet a ctx4.awaits = false := hflag1
    rcases geminiCall_cases a "generateStrategy" env.strategyRes ctx4 ha hflag4 hwf2 with
      ⟨strat, ctx5, _h2, hcall2, hst5, hflag5, _hc2⟩ |
      ⟨e2, ctx5, hcall2, hname2, _hst5, _hc2⟩ | ⟨ctx5, hcall2, hra5, _⟩
    · rw [hcall2]
      simp only [StepR.bind]
      set ctx7 := updSt (setTaskCtx ctx5 "strategy" TaskStatus.completed) (fun st => { st with hubs := strat.1, status := Status.generating_hubs, strategyRationale := some strat.2, executionPlan := s.executionPlan ++ (strat.1.map buildHubTask ++ [mkTask "finalize-index" "トップページの統合" TaskStatus.pending]), currentDetail := some "ページ生成プロセスを開始..." }) with hctx7
      have hflag7 : flagSet a ctx7.awaits = false := hflag5
      rcases buildGenLoop_cases a env ha hwf3 strat.1 0 [] ctx7 hflag7 with
        ⟨acc', ctx8, hloop, hflag8, _hlen, _hid8⟩ |
        ⟨e3, ctx8, hloop, hname3, _hid8⟩ | ⟨ctx8, hloop, hra8⟩
      · rw [hloop]
        simp only [StepR.bind]
        have hflag9 : flagSet a (setTaskCtx ctx8 "finalize-index" TaskStatus.running).awaits = false := hflag8
        rcases geminiCall_cases a "generateIndexHtml" env.indexRes (setTaskCtx ctx8 "finalize-index" TaskStatus.running) ha hflag9 hwf4 with
          ⟨ihtml, ctx10, _h3, hcall3, _hst10, _hflag10, _hc3⟩ |
          ⟨e4, ctx10, hcall3, hname4, _hst10, _hc3⟩ | ⟨ctx10, hcall3, hra10, _⟩
        · rw [hcall3]
          simp [StepR.bind, exitClauses, restingAfterAbort, updSt, setTaskCtx]
        · rw [hcall3]
          have hb : (e4.name == "AbortError") = false := by
            simpa [beq_eq_false_iff_ne] using hname4
          simp [StepR.bind, exitClauses, hb, fatalResetIdle, restingAfterAbort]
        · rw [hcall3]
          simp only [StepR.bind, habort, if_true, exitClauses]
          refine ⟨⟨by intro hx; simp at hx, by intro hx; simp at hx, fun _ => hra10⟩, by simp⟩
      · rw [hloop]
        have hb : (e3.name == "AbortError") = false := by
          simpa [beq_eq_false_iff_ne] using hname3
        simp [StepR.bind, exitClauses, hb, fatalResetIdle, restingAfterAbort]
      · rw [hloop]
        simp only [StepR.bind, habort, if_true, exitClauses]
        refine ⟨⟨by intro hx; simp at hx, by intro hx; simp at hx, fun _ => hra8⟩, by simp⟩
    · rw [hcall2]
      have hb : (e2.name == "AbortError") = false := by
        simpa [beq_eq_false_iff_ne] using hname2
      simp [StepR.bind, exitClauses, hb, fatalResetIdle, restingAfterAbort]
    · rw [hcall2]
      simp only [StepR.bind, habort, if_true, exitClauses]
      refine ⟨⟨by intro hx; simp at hx, by intro hx; simp at hx, fun _ => hra5⟩, by simp⟩
  · rw [hcall1]
    have hb : (e1.name == "AbortError") = false := by
      simpa [beq_eq_false_iff_ne] using hname1
    simp [StepR.bind, exitClauses, hb, fatalResetIdle, restingAfterAbort]
  · rw [hcall1]
    simp only [StepR.bind, habort, if_true, exitClauses]
    refine ⟨⟨by intro hx; simp at hx, by intro hx; simp at hx, fun _ => hra1⟩, by simp⟩

/-- Exit analysis of the Tune refactor loop: the shared state receives
only ledger and detail updates — identity, hubs and articles are untouched
in every exit case (the rewritten markup lives in the local copies until
the loop completes). -/
theorem tuneLoop_cases (a : AbortSpec) (env : TuneEnv) (ha : okAbort a)
    (hwf : ∀ k, wfRes (env.tuneRes k)) :
    ∀ (targets : List TuneTarget) (k : Nat) (uh : List HubPage)
      (ua : List Article) (ctx : RunCtx),
      flagSet a ctx.awaits = false →
      (∃ upd ctx', tuneLoop a env targets k uh ua ctx = .ok upd ctx' ∧
        flagSet a ctx'.awaits = false ∧ ctx'.st.identity = ctx.st.identity ∧
        ctx'.st.hubs = ctx.st.hubs ∧ ctx'.st.articles = ctx.st.articles) ∨
      (∃ e ctx', tuneLoop a env targets k uh ua ctx = .exn e ctx' ∧
        e.name ≠ "AbortError" ∧ ctx'.st.identity = ctx.st.identity ∧
        ctx'.st.hubs = ctx.st.hubs ∧ ctx'.st.articles = ctx.st.articles) ∨
      (∃ ctx', tuneLoop a env targets k uh ua ctx = .exn abortErr ctx' ∧
        restingAfterAbort ctx'.st ∧ ctx'.st.identity = ctx.st.identity ∧
        ctx'.st.hubs = ctx.st.hubs ∧ ctx'.st.articles = ctx.st.articles) := by
  intro targets
  induction targets with
  | nil =>
    intro k uh ua ctx hflag
    exact Or.inl ⟨(uh, ua), ctx, rfl, hflag, rfl, rfl, rfl⟩
  | cons t rest ih =>
    intro k uh ua ctx hflag
    simp only [tuneLoop]
    rw [if_neg (by simp [hflag])]
    set ctx2 := updSt (setTaskCtx ctx ("tune-" ++ t.id) TaskStatus.running)
      (fun st => { st with currentDetail := some ("リファクタリング実行中: " ++ t.title) }) with hctx2
    have hflag2 : flagSet a ctx2.awaits = false := hflag
    rcases geminiCall_cases a "tunePageDesign" (env.tuneRes k) ctx2 ha hflag2 (hwf k) with
      ⟨newHtml, ctx3, _h1, hcall, hst, hflag3, _hc⟩ |
      ⟨e, ctx3, hcall, hname, hst, _hc⟩ | ⟨ctx3, hcall, hra, hidp, hhp, hap⟩
    · rw [hcall]
      simp only [StepR.bind]
      have hflag4 : flagSet a (setTaskCtx ctx3 ("tune-" ++ t.id) TaskStatus.completed).awaits = false := hflag3
      rcases ih (k + 1)
          (match t.kind with
           | .hub => setHubHtmlFirst t.id newHtml uh
           | .article => uh)
          (match t.kind with
           | .hub => ua
           | .article => setArticleHtmlFirst t.id newHtml ua)
          (setTaskCtx ctx3 ("tune-" ++ t.id) TaskStatus.completed) hflag4 with
        ⟨upd, ctx', hloop, hfl, hid, hh, harts⟩ |
        ⟨e, ctx', hloop, hname, hid, hh, harts⟩ | ⟨ctx', hloop, hra, hid, hh, harts⟩
      · refine Or.inl ⟨upd, ctx', hloop, hfl, ?_, ?_, ?_⟩
        · have h1 : ctx'.st.identity = ctx3.st.identity := hid
          rw [h1, hst]; rfl
        · have h1 : ctx'.st.hubs = ctx3.st.hubs := hh
          rw [h1, hst]; rfl
        · have h1 : ctx'.st.articles = ctx3.st.articles := harts
          rw [h1, hst]; rfl
      · refine Or.inr (Or.inl ⟨e, ctx', hloop, hname, ?_, ?_, ?_⟩)
        · have h1 : ctx'.st.identity = ctx3.st.identity := hid
          rw [h1, hst]; rfl
        · have h1 : ctx'.st.hubs = ctx3.st.hubs := hh
          rw [h1, hst]; rfl
        · have h1 : ctx'.st.articles = ctx3.st.articles := harts
          rw [h1, hst]; rfl
      · refine Or.inr (Or.inr ⟨ctx', hloop, hra, ?_, ?_, ?_⟩)
        · have h1 : ctx'.st.identity = ctx3.st.identity := hid
          rw [h1, hst]; rfl
        · have h1 : ctx'.st.hubs = ctx3.st.hubs := hh
          rw [h1, hst]; rfl
        · have h1 : ctx'.st.articles = ctx3.st.articles := harts
          rw [h1, hst]; rfl
    · rw [hcall]
      simp only [StepR.bind]
      refine Or.inr (Or.inl ⟨e, ctx3, rfl, hname, ?_, ?_, ?_⟩) <;> rw [hst] <;> rfl
    · rw [hcall]
      simp only [StepR.bind]
      refine Or.inr (Or.inr ⟨ctx3, rfl, hra, ?_, ?_, ?_⟩)
      · rw [hidp]; rfl
      · rw [hhp]; rfl
      · rw [hap]; rfl

/-- `tuneFinally` of a state with an identity is in the resting shape. -/
theorem restingAfterAbort_tuneFinally {st : ProjectState}
    (h : st.identity.isSome = true) : restingAfterAbort (tuneFinally st) := by
  refine ⟨rfl, rfl, ?_⟩
  simp [tuneFinally, h]

/-- Tune: the `finally` block forces `ready`, a cleared ledger and detail
line on every exit path; the artifact lists are committed only on full
success, so a fatal exit leaves hubs and articles exactly as at the start
of the run. -/
theorem handleTuneDesign_exits (s : ProjectState) (instr target : String)
    (env : TuneEnv) (a : AbortSpec) (ha : okAbort a)
    (hwfp : wfRes env.planRes) (hwft : ∀ k, wfRes (env.tuneRes k)) :
    exitClauses (handleTuneDesign s instr target env a) .ready .ready ∧
    ((handleTuneDesign s instr target env a).exit = .skipped →
      handleTuneDesign s instr target env a = ⟨s, [], .skipped⟩) ∧
    ((handleTuneDesign s instr target env a).exit = .fatal →
      (handleTuneDesign s instr target env a).st.hubs = s.hubs ∧
      (handleTuneDesign s instr target env a).st.articles = s.articles) := by
  unfold handleTuneDesign
  by_cases hskip : (s.identity.isNone || instr == "") = true
  · rw [if_pos hskip]
    refine ⟨⟨?_, ?_, ?_⟩, fun _ => rfl, ?_⟩ <;> intro hx <;> simp at hx
  · rw [if_neg hskip]
    have hId : s.identity.isSome = true := by
      cases hcase : s.identity with
      | none => rw [hcase] at hskip; simp at hskip
      | some v => rfl
    dsimp only []
    have hflag0 : flagSet a (RunCtx.mk (tuneSeed s) 0 []).awaits = false := flagSet_zero a
    have habort : (abortErr.name == "AbortError") = true := by decide
    rcases geminiCall_cases a "generateTunePlan" env.planRes ⟨tuneSeed s, 0, []⟩ ha hflag0 hwfp with
      ⟨tp, ctx1, _h1, hcall1, hst1, hflag1, _hc1⟩ |
      ⟨e1, ctx1, hcall1, hname1, hst1, _hc1⟩ | ⟨ctx1, hcall1, hra1, hid1, _⟩
    · rw [hcall1]
      simp only [StepR.bind]
      set ctx3 := updSt (setTaskCtx ctx1 "plan-generation" TaskStatus.completed) (fun st => { st with executionPlan := s.executionPlan ++ ((tp.tasks.enum.map fun p => mkTask ("plan-step-" ++ toString p.1) ("【方針】" ++ p.2) TaskStatus.completed) ++ ((tuneTargetsFor s target).map fun t => mkGroupTask ("tune-" ++ t.id) ("反映: " ++ t.title) TaskStatus.pending "tune-pages" "ページのリファクタリング反映")) }) with hctx3
      have hflag3 : flagSet a ctx3.awaits = false := hflag1
      rcases tuneLoop_cases a env ha hwft (tuneTargetsFor s target) 0 s.hubs s.articles ctx3 hflag3 with
        ⟨upd, ctx4, hloop, hflag4, hid4, _hh4, _ha4⟩ |
        ⟨e2, ctx4, hloop, hname2, hid4, hh4, ha4⟩ | ⟨ctx4, hloop, hra4, hid4, _⟩
      · rw [hloop]
        simp [StepR.bind, exitClauses, tuneFinally, updSt]
      · rw [hloop]
        have hb : (e2.name == "AbortError") = false := by
          simpa [beq_eq_false_iff_ne] using hname2
        simp only [StepR.bind, hb, Bool.false_eq_true, if_false, exitClauses]
        refine ⟨⟨by intro hx; simp at hx, ?_, by intro hx; simp at hx⟩,
          by intro hx; simp at hx, ?_⟩
        · intro _
          exact ⟨rfl, rfl, rfl⟩
        · intro _
          constructor
          · show (tuneFinally ctx4.st).hubs = s.hubs
            have h1 : ctx4.st.hubs = ctx3.st.hubs := hh4
            have h2 : ctx3.st.hubs = ctx1.st.hubs := rfl
            rw [show (tuneFinally ctx4.st).hubs = ctx4.st.hubs from rfl, h1, h2, hst1]
            rfl
          · show (tuneFinally ctx4.st).articles = s.articles
            have h1 : ctx4.st.articles = ctx3.st.articles := ha4
            have h2 : ctx3.st.articles = ctx1.st.articles := rfl
            rw [show (tuneFinally ctx4.st).articles = ctx4.st.articles from rfl, h1, h2, hst1]
            rfl
      · rw [hloop]
        simp only [StepR.bind, habort, if_true, exitClauses]
        have hidc : ctx4.st.identity.isSome = true := by
          have h1 : ctx4.st.identity = ctx3.st.identity := hid4
          have h2 : ctx3.st.identity = ctx1.st.identity := rfl
          rw [h1, h2, hst1]
          exact hId
        refine ⟨⟨by intro hx; simp at hx, by intro hx; simp at hx,
          fun _ => restingAfterAbort_tuneFinally hidc⟩,
          by intro hx; simp at hx, by intro hx; simp at hx⟩
    · rw [hcall1]
      have hb : (e1.name == "AbortError") = false := by
        simpa [beq_eq_false_iff_ne] using hname1
      simp only [StepR.bind, hb, Bool.false_eq_true, if_false, exitClauses]
      refine ⟨⟨by intro hx; simp at hx, fun _ => ⟨rfl, rfl, rfl⟩,
        by intro hx; simp at hx⟩, by intro hx; simp at hx, ?_⟩
      intro _
      constructor
      · show (tuneFinally ctx1.st).hubs = s.hubs
        rw [show (tuneFinally ctx1.st).hubs = ctx1.st.hubs from rfl, hst1]
        rfl
      · show (tuneFinally ctx1.st).articles = s.articles
        rw [show (tuneFinally ctx1.st).articles = ctx1.st.articles from rfl, hst1]
        rfl
    · rw [hcall1]
      simp only [StepR.bind, habort, if_true, exitClauses]
      have hidc : ctx1.st.identity.isSome = true := by
        rw [hid1]
        exact hId
      refine ⟨⟨by intro hx; simp at hx, by intro hx; simp at hx,
        fun _ => restingAfterAbort_tuneFinally hidc⟩,
        by intro hx; simp at hx, by intro hx; simp at hx⟩

/-- Exit analysis of the Import restoration loop. -/
theorem importRestoreLoop_cases (a : AbortSpec) (env : ImportEnv)
    (ha : okAbort a) (hwf : ∀ u, wfRes (env.contentRes u))
    (htmlFiles : List GitHubFileNode) (indexFile : Option GitHubFileNode) :
    ∀ (hubs : List HubPage) (acc : List HubPage) (ctx : RunCtx),
      flagSet a ctx.awaits = false →
      (∃ acc' ctx', importRestoreLoop a env htmlFiles indexFile hubs acc ctx = .ok acc' ctx' ∧
        flagSet a ctx'.awaits = false) ∨
      (∃ e ctx', importRestoreLoop a env htmlFiles indexFile hubs acc ctx = .exn e ctx' ∧
        e.name ≠ "AbortError") ∨
      (∃ ctx', importRestoreLoop a env htmlFiles indexFile hubs acc ctx = .exn abortErrGh ctx' ∧
        restingAfterAbort ctx'.st) := by
  intro hubs
  induction hubs with
  | nil =>
    intro acc ctx hflag
    exact Or.inl ⟨acc, ctx, rfl, hflag⟩
  | cons hub rest ih =>
    intro acc ctx hflag
    simp only [importRestoreLoop]
    cases hm : (match htmlFiles.find? (fun f => strContains f.path (hub.slug ++ "/index.html")) with
      | some f => some f
      | none => if hub.slug == "index" then indexFile else none) with
    | some mf =>
      simp only [hm]
      set ctx1 := updSt ctx (fun st => { st with currentDetail := some ("取得中: " ++ hub.slug) }) with hctx1
      have hflag1 : flagSet a ctx1.awaits = false := hflag
      rcases githubCall_cases a "getFileContent" (env.contentRes mf.url) ctx1 ha hflag1 (hwf mf.url) with
        ⟨content, ctx2, _h1, hcall, _hst, hflag2, _hc⟩ |
        ⟨e, ctx2, hcall, hname, _hst, _hc⟩ | ⟨ctx2, hcall, hra, _⟩
      · rw [hcall]
        simp only [StepR.bind]
        exact ih (acc ++ [{ hub with html := some content }]) ctx2 hflag2
      · rw [hcall]
        simp only [StepR.bind]
        exact Or.inr (Or.inl ⟨e, ctx2, rfl, hname⟩)
      · rw [hcall]
        simp only [StepR.bind]
        exact Or.inr (Or.inr ⟨ctx2, rfl, hra⟩)
    | none =>
      simp only [hm]
      exact ih (acc ++ [hub]) ctx hflag

/-- Wellformedness of an Import environment. -/
def wfImportEnv (env : ImportEnv) : Prop :=
  wfRes env.detailsRes ∧ wfRes env.treeRes ∧ (∀ u, wfRes (env.contentRes u)) ∧
  wfRes env.identityRes ∧ wfRes env.structureRes

/-- Import: success rests at `ready`, fatal error at `idle` (whether or
not an identity already existed), cancellation at the abort handler's
reset; a guard failure leaves the state untouched. -/
theorem handleImport_exits (s : ProjectState) (importRepo importToken : String)
    (env : ImportEnv) (a : AbortSpec) (ha : okAbort a) (hwf : wfImportEnv env) :
    exitClauses (handleImport s importRepo importToken env a) .ready .idle ∧
    ((handleImport s importRepo importToken env a).exit = .skipped →
      handleImport s importRepo importToken env a = ⟨s, [], .skipped⟩) := by
  obtain ⟨hwf1, hwf2, hwf3, hwf4, hwf5⟩ := hwf
  unfold handleImport
  by_cases hskip : (importRepo == "" || importToken == "") = true
  · rw [if_pos hskip]
    refine ⟨⟨?_, ?_, ?_⟩, fun _ => rfl⟩ <;> intro hx <;> simp at hx
  · rw [if_neg hskip]
    dsimp only []
    have hflag0 : flagSet a (RunCtx.mk (importSeed s) 0 []).awaits = false := flagSet_zero a
    have habortg : (abortErrGh.name == "AbortError") = true := by decide
    have habort : (abortErr.name == "AbortError") = true := by decide
    rcases githubCall_cases a "fetchRepoDetails" env.detailsRes ⟨importSeed s, 0, []⟩ ha hflag0 hwf1 with
      ⟨details, ctx1, _h1, hcall1, _hst1, hflag1, _hc1⟩ |
      ⟨e1, ctx1, hcall1, hname1, _hst1, _hc1⟩ | ⟨ctx1, hcall1, hra1, _⟩
    · rw [hcall1]
      simp only [StepR.bind]
      have hflag2 : flagSet a (setTaskCtx (setTaskCtx ctx1 "fetch-info" TaskStatus.completed) "fetch-tree" TaskStatus.running).awaits = false := hflag1
      rcases githubCall_cases a "fetchRepoStructure" env.treeRes (setTaskCtx (setTaskCtx ctx1 "fetch-info" TaskStatus.completed) "fetch-tree" TaskStatus.running) ha hflag2 hwf2 with
        ⟨tree, ctx2, _h2, hcall2, _hst2, hflag3, _hc2⟩ |
        ⟨e2, ctx2, hcall2, hname2, _hst2, _hc2⟩ | ⟨ctx2, hcall2, hra2, _⟩
      · rw [hcall2]
        simp only [StepR.bind]
        have hcont : ∀ (ctx6 : RunCtx), flagSet a ctx6.awaits = false →
            (∃ ihtml ctx7, (match tree.filter (fun f => strEndsWith f.path ".html") |>.find? (fun f => strEndsWith f.path "index.html") with
              | some f => githubCall a "getFileContent" (env.contentRes f.url) ctx6
              | none => StepR.ok "" ctx6) = .ok ihtml ctx7 ∧ flagSet a ctx7.awaits = false) ∨
            (∃ e ctx7, (match tree.filter (fun f => strEndsWith f.path ".html") |>.find? (fun f => strEndsWith f.path "index.html") with
              | some f => githubCall a "getFileContent" (env.contentRes f.url) ctx6
              | none => StepR.ok "" ctx6) = .exn e ctx7 ∧ e.name ≠ "AbortError") ∨
            (∃ ctx7, (match tree.filter (fun f => strEndsWith f.path ".html") |>.find? (fun f => strEndsWith f.path "index.html") with
              | some f => githubCall a "getFileContent" (env.contentRes f.url) ctx6
              | none => StepR.ok "" ctx6) = .exn abortErrGh ctx7 ∧ restingAfterAbort ctx7.st) := by
          intro ctx6 hf6
          cases hidx : tree.filter (fun f => strEndsWith f.path ".html") |>.find? (fun f => strEndsWith f.path "index.html") with
          | some f =>
            rcases githubCall_cases a "getFileContent" (env.contentRes f.url) ctx6 ha hf6 (hwf3 f.url) with
              ⟨c, ctx7, _hx, hc, _hs, hf7, _hcx⟩ | ⟨e, ctx7, hc, hn, _hs, _hcx⟩ | ⟨ctx7, hc, hr, _⟩
            · exact Or.inl ⟨c, ctx7, hc, hf7⟩
            · exact Or.inr (Or.inl ⟨e, ctx7, hc, hn⟩)
            · exact Or.inr (Or.inr ⟨ctx7, hc, hr⟩)
          | none => exact Or.inl ⟨"", ctx6, rfl, hf6⟩
        have hflag6 : flagSet a (setTaskCtx (setTaskCtx ctx2 "fetch-tree" TaskStatus.completed) "fetch-content" TaskStatus.running).awaits = false := hflag3
        rcases hcont (setTaskCtx (setTaskCtx ctx2 "fetch-tree" TaskStatus.completed) "fetch-content" TaskStatus.running) hflag6 with
          ⟨ihtml, ctx7, hcall3, hflag7⟩ | ⟨e3, ctx7, hcall3, hname3⟩ | ⟨ctx7, hcall3, hra3⟩
        · rw [hcall3]
          simp only [StepR.bind]
          have hflag8 : flagSet a (setTaskCtx (setTaskCtx ctx7 "fetch-content" TaskStatus.completed) "analyze-brand" TaskStatus.running).awaits = false := hflag7
          rcases geminiCall_cases a "analyzeSiteIdentity" env.identityRes (setTaskCtx (setTaskCtx ctx7 "fetch-content" TaskStatus.completed) "analyze-brand" TaskStatus.running) ha hflag8 hwf4 with
            ⟨idv, ctx8, _h4, hcall4, _hst4, hflag9, _hc4⟩ |
            ⟨e4, ctx8, hcall4, hname4, _hst4, _hc4⟩ | ⟨ctx8, hcall4, hra4, _⟩
          · rw [hcall4]
            simp only [StepR.bind]
            have hflag10 : flagSet a (setTaskCtx (setTaskCtx ctx8 "analyze-brand" TaskStatus.completed) "analyze-structure" TaskStatus.running).awaits = false := hflag9
            rcases geminiCall_cases a "analyzeRepoStructure" env.structureRes (setTaskCtx (setTaskCtx ctx8 "analyze-brand" TaskStatus.completed) "analyze-structure" TaskStatus.running) ha hflag10 hwf5 with
              ⟨hubsArts, ctx9, _h5, hcall5, _hst5, hflag11, _hc5⟩ |
              ⟨e5, ctx9, hcall5, hname5, _hst5, _hc5⟩ | ⟨ctx9, hcall5, hra5, _⟩
            · rw [hcall5]
              simp only [StepR.bind]
              have hflag12 : flagSet a (setTaskCtx (setTaskCtx ctx9 "analyze-structure" TaskStatus.completed) "fetch-full-content" TaskStatus.running).awaits = false := hflag11
              rcases importRestoreLoop_cases a env ha hwf3 (tree.filter (fun f => strEndsWith f.path ".html")) (tree.filter (fun f => strEndsWith f.path ".html") |>.find? (fun f => strEndsWith f.path "index.html")) hubsArts.1 [] (setTaskCtx (setTaskCtx ctx9 "analyze-structure" TaskStatus.completed) "fetch-full-content" TaskStatus.running) hflag12 with
                ⟨finalHubs, ctx10, hloop, _hflag13⟩ |
                ⟨e6, ctx10, hloop, hname6⟩ | ⟨ctx10, hloop, hra6⟩
              · rw [hloop]
                simp [StepR.bind, exitClauses, updSt, setTaskCtx]
              · rw [hloop]
                have hb : (e6.name == "AbortError") = false := by
                  simpa [beq_eq_false_iff_ne] using hname6
                simp [StepR.bind, exitClauses, hb, fatalResetIdle, restingAfterAbort]
              · rw [hloop]
                simp only [StepR.bind, habortg, if_true, exitClauses]
                refine ⟨⟨by intro hx; simp at hx, by intro hx; simp at hx, fun _ => hra6⟩, by intro hx; simp at hx⟩
            · rw [hcall5]
              have hb : (e5.name == "AbortError") = false := by
                simpa [beq_eq_false_iff_ne] using hname5
              simp [StepR.bind, exitClauses, hb, fatalResetIdle, restingAfterAbort]
            · rw [hcall5]
              simp only [StepR.bind, habort, if_true, exitClauses]
              refine ⟨⟨by intro hx; simp at hx, by intro hx; simp at hx, fun _ => hra5⟩, by intro hx; simp at hx⟩
          · rw [hcall4]
            have hb : (e4.name == "AbortError") = false := by
              simpa [beq_eq_false_iff_ne] using hname4
            simp [StepR.bind, exitClauses, hb, fatalResetIdle, restingAfterAbort]
          · rw [hcall4]
            simp only [StepR.bind, habort, if_true, exitClauses]
            refine ⟨⟨by intro hx; simp at hx, by intro hx; simp at hx, fun _ => hra4⟩, by intro hx; simp at hx⟩
        · rw [hcall3]
          have hb : (e3.name == "AbortError") = false := by
            simpa [beq_eq_false_iff_ne] using hname3
          simp [StepR.bind, exitClauses, hb, fatalResetIdle, restingAfterAbort]
        · rw [hcall3]
          simp only [StepR.bind, habortg, if_true, exitClauses]
          refine ⟨⟨by intro hx; simp at hx, by intro hx; simp at hx, fun _ => hra3⟩, by intro hx; simp at hx⟩
      · rw [hcall2]
        have hb : (e2.name == "AbortError") = false := by
          simpa [beq_eq_false_iff_ne] using hname2
        simp [StepR.bind, exitClauses, hb, fatalResetIdle, restingAfterAbort]
      · rw [hcall2]
        simp only [StepR.bind, habortg, if_true, exitClauses]
        refine ⟨⟨by intro hx; simp at hx, by intro hx; simp at hx, fun _ => hra2⟩, by intro hx; simp at hx⟩
    · rw [hcall1]
      have hb : (e1.name == "AbortError") = false := by
        simpa [beq_eq_false_iff_ne] using hname1
      simp [StepR.bind, exitClauses, hb, fatalResetIdle, restingAfterAbort]
    · rw [hcall1]
      simp only [StepR.bind, habortg, if_true, exitClauses]
      refine ⟨⟨by intro hx; simp at hx, by intro hx; simp at hx, fun _ => hra1⟩, by intro hx; simp at hx⟩

/-- Case analysis of the unsignalled readme call: it always runs; if the
user aborts during it, the state is reset but the call still returns its
own outcome. -/
theorem geminiCallNoSignal_cases (a : AbortSpec) (nm : String)
    (res : Except GErr α) (ctx : RunCtx) (ha : okAbort a)
    (hflag : flagSet a ctx.awaits = false) (hwf : wfRes res) :
    (∃ v ctx', res = .ok v ∧ geminiCallNoSignal a nm res ctx = .ok v ctx' ∧
      ((flagSet a ctx'.awaits = false ∧ ctx'.st = ctx.st) ∨
        restingAfterAbort ctx'.st) ∧
      ctx'.calls = ctx.calls ++ [nm]) ∨
    (∃ e ctx', geminiCallNoSignal a nm res ctx = .exn e ctx' ∧
      e.name ≠ "AbortError" ∧ ctx'.calls = ctx.calls ++ [nm]) := by
  rcases ha with rfl | ⟨t, rfl⟩
  · cases res with
    | ok v => exact Or.inl ⟨v, _, rfl, rfl, Or.inl ⟨rfl, rfl⟩, rfl⟩
    | error e => exact Or.inr ⟨e, _, rfl, hwf e rfl, rfl⟩
  · by_cases he : t = ctx.awaits
    · cases res with
      | ok v =>
        have hcall : geminiCallNoSignal (AbortSpec.during t false) nm (.ok v : Except GErr α) ctx = .ok v { ctx with st := abortReset ctx.st, awaits := ctx.awaits + 1, calls := ctx.calls ++ [nm] } := by
          simp [geminiCallNoSignal, he]
        exact Or.inl ⟨v, _, rfl, hcall, Or.inr (restingAfterAbort_abortReset ctx.st), rfl⟩
      | error e =>
        have hcall : geminiCallNoSignal (AbortSpec.during t false) nm (.error e : Except GErr α) ctx = .exn e { ctx with st := abortReset ctx.st, awaits := ctx.awaits + 1, calls := ctx.calls ++ [nm] } := by
          simp [geminiCallNoSignal, he]
        exact Or.inr ⟨e, _, hcall, hwf e rfl, rfl⟩
    · have hbeq : (t == ctx.awaits) = false := by simpa using he
      cases res with
      | ok v =>
        have hcall : geminiCallNoSignal (AbortSpec.during t false) nm (.ok v : Except GErr α) ctx = .ok v { ctx with awaits := ctx.awaits + 1, calls := ctx.calls ++ [nm] } := by
          simp [geminiCallNoSignal, hbeq]
        refine Or.inl ⟨v, _, rfl, hcall, Or.inl ⟨?_, rfl⟩, rfl⟩
        have ht : ¬ t < ctx.awaits := by simpa [flagSet] using hflag
        simp [flagSet]
        omega
      | error e =>
        have hcall : geminiCallNoSignal (AbortSpec.during t false) nm (.error e : Except GErr α) ctx = .exn e { ctx with awaits := ctx.awaits + 1, calls := ctx.calls ++ [nm] } := by
          simp [geminiCallNoSignal, hbeq]
        exact Or.inr ⟨e, _, hcall, hwf e rfl, rfl⟩

/-- A hosting call that throws a non-abort error leaves the flag unset
(the schedule did not fire during it). -/
theorem githubCall_exn_flag (a : AbortSpec) (nm : String)
    (res : Except GErr α) (ctx ctx' : RunCtx) (e : GErr)
    (hflag : flagSet a ctx.awaits = false)
    (h : githubCall a nm res ctx = .exn e ctx')
    (hname : e.name ≠ "AbortError") :
    flagSet a ctx'.awaits = false := by
  cases a with
  | never => simp [flagSet]
  | during t c =>
    have ht : ¬ t < ctx.awaits := by simpa [flagSet] using hflag
    by_cases he : t = ctx.awaits
    · exfalso
      simp only [githubCall] at h
      rw [if_neg ht, if_pos (by simpa using he)] at h
      injection h with h1 h2
      exact hname (by rw [← h1]; rfl)
    · have hbeq : ¬ (t == ctx.awaits) = true := by simpa using he
      cases hres : res with
      | ok v =>
        rw [hres] at h
        simp only [githubCall] at h
        rw [if_neg ht, if_neg hbeq] at h
        simp at h
      | error e0 =>
        rw [hres] at h
        simp only [githubCall] at h
        rw [if_neg ht, if_neg hbeq] at h
        injection h with h1 h2
        rw [← h2]
        simp [flagSet]
        omega

/-- A hosting call that throws an abort error at an unset flag sets the
flag (the schedule fired during this very call). -/
theorem githubCall_abort_flag (a : AbortSpec) (nm : String)
    (res : Except GErr α) (ctx ctx' : RunCtx) (e : GErr)
    (ha : okAbort a) (hflag : flagSet a ctx.awaits = false) (hwf : wfRes res)
    (h : githubCall a nm res ctx = .exn e ctx')
    (hname : e.name = "AbortError") :
    flagSet a ctx'.awaits = true := by
  rcases ha with rfl | ⟨t, rfl⟩
  · exfalso
    cases hres : res with
    | ok v =>
      rw [hres] at h
      simp [githubCall] at h
    | error e0 =>
      rw [hres] at h
      simp only [githubCall] at h
      injection h with h1 h2
      exact (hwf e0 hres) (by rw [h1]; exact hname)
  · have ht : ¬ t < ctx.awaits := by simpa [flagSet] using hflag
    by_cases he : t = ctx.awaits
    · simp only [githubCall] at h
      rw [if_neg ht, if_pos (by simpa using he)] at h
      injection h with h1 h2
      rw [← h2]
      simp [flagSet]
      omega
    · exfalso
      have hbeq : ¬ (t == ctx.awaits) = true := by simpa using he
      cases hres : res with
      | ok v =>
        rw [hres] at h
        simp only [githubCall] at h
        rw [if_neg ht, if_neg hbeq] at h
        simp at h
      | error e0 =>
        rw [hres] at h
        simp only [githubCall] at h
        rw [if_neg ht, if_neg hbeq] at h
        injection h with h1 h2
        exact (hwf e0 hres) (by rw [h1]; exact hname)

/-- Exit analysis of the Publish upload loop.  The entry condition allows
a flag already set by an abort during the unsignalled readme call, provided
the state is already reset. -/
theorem pubLoop_cases (a : AbortSpec) (env : PublishEnv) (ha : okAbort a)
    (hwfc : ∀ k, wfRes (env.checkRes k)) (hwfp : ∀ k, wfRes (env.putRes k)) :
    ∀ (files : List (String × String)) (k : Nat) (ctx : RunCtx),
      (flagSet a ctx.awaits = false ∨ restingAfterAbort ctx.st) →
      (∃ ctx', pubLoop a env files k ctx = .ok () ctx' ∧
        (flagSet a ctx'.awaits = false ∨ restingAfterAbort ctx'.st)) ∨
      (∃ e ctx', pubLoop a env files k ctx = .exn e ctx' ∧ e.name ≠ "AbortError") ∨
      (∃ ctx', pubLoop a env files k ctx = .exn abortErrGh ctx' ∧
        restingAfterAbort ctx'.st) := by
  intro files
  induction files with
  | nil =>
    intro k ctx hinv
    exact Or.inl ⟨ctx, rfl, hinv⟩
  | cons file rest ih =>
    intro k ctx hinv
    obtain ⟨path, content⟩ := file
    simp only [pubLoop]
    by_cases hflag : flagSet a ctx.awaits = true
    · rw [if_pos hflag]
      rcases hinv with hf | hr
      · rw [hf] at hflag; exact absurd hflag (by simp)
      · exact Or.inr (Or.inr ⟨ctx, rfl, hr⟩)
    · rw [if_neg hflag]
      have hflag' : flagSet a ctx.awaits = false := by
        simpa using hflag
      set ctx1 := updSt ctx (fun st => { st with currentDetail := some ("送信中: " ++ path) }) with hctx1
      have hflag1 : flagSet a ctx1.awaits = false := hflag'
      rcases githubCall_cases a "getFile" (env.checkRes k) ctx1 ha hflag1 (hwfc k) with
        ⟨sha, ctx2, _h1, hget, _hst2, hflag2, _hc⟩ |
        ⟨e, ctx2, hget, hnamee, _hst2, _hc⟩ | ⟨ctx2, hget, hra2, _⟩
      · rw [show githubCallCaught a "getFile" (env.checkRes k) ctx1 = (sha, ctx2) from by
          unfold githubCallCaught; rw [hget]]
        rcases githubCall_cases a "putFile" (env.putRes k) ctx2 ha hflag2 (hwfp k) with
          ⟨u, ctx3, _h2, hput, _hst3, hflag3, _hc2⟩ |
          ⟨e2, ctx3, hput, hname2, _hst3, _hc2⟩ | ⟨ctx3, hput, hra3, _⟩
        · rw [hput]
          simp only [StepR.bind]
          exact ih (k + 1) ctx3 (Or.inl hflag3)
        · rw [hput]
          simp only [StepR.bind]
          exact Or.inr (Or.inl ⟨e2, ctx3, rfl, hname2⟩)
        · rw [hput]
          simp only [StepR.bind]
          exact Or.inr (Or.inr ⟨ctx3, rfl, hra3⟩)
      · rw [show githubCallCaught a "getFile" (env.checkRes k) ctx1 = (none, ctx2) from by
          unfold githubCallCaught; rw [hget]]
        have hflag2 : flagSet a ctx2.awaits = false :=
          githubCall_exn_flag a "getFile" (env.checkRes k) ctx1 ctx2 e hflag1 hget hnamee
        rcases githubCall_cases a "putFile" (env.putRes k) ctx2 ha hflag2 (hwfp k) with
          ⟨u, ctx3, _h2, hput, _hst3, hflag3, _hc2⟩ |
          ⟨e2, ctx3, hput, hname2, _hst3, _hc2⟩ | ⟨ctx3, hput, hra3, _⟩
        · rw [hput]
          simp only [StepR.bind]
          exact ih (k + 1) ctx3 (Or.inl hflag3)
        · rw [hput]
          simp only [StepR.bind]
          exact Or.inr (Or.inl ⟨e2, ctx3, rfl, hname2⟩)
        · rw [hput]
          simp only [StepR.bind]
          exact Or.inr (Or.inr ⟨ctx3, rfl, hra3⟩)
      · rw [show githubCallCaught a "getFile" (env.checkRes k) ctx1 = (none, ctx2) from by
          unfold githubCallCaught; rw [hget]]
        have hflagT : flagSet a ctx2.awaits = true :=
          githubCall_abort_flag a "getFile" (env.checkRes k) ctx1 ctx2 abortErrGh
            ha hflag1 (hwfc k) hget rfl
        obtain ⟨ctx3, hput, hst3⟩ := githubCall_flagTrue a "putFile" (env.putRes k) ctx2 hflagT
        rw [hput]
        simp only [StepR.bind]
        refine Or.inr (Or.inr ⟨ctx3, rfl, ?_⟩)
        rw [hst3]
        exact hra2

/-- Wellformedness of a Publish environment. -/
def wfPublishEnv (env : PublishEnv) : Prop :=
  wfRes env.detailsRes ∧ wfRes env.createRes ∧ wfRes env.readmeRes ∧
  (∀ k, wfRes (env.checkRes k)) ∧ (∀ k, wfRes (env.putRes k)) ∧
  wfRes env.enableRes

/-- Publish: success rests at `deployed`, fatal error at `ready` (whether
or not an identity exists), cancellation at the abort handler's reset; a
guard failure leaves the state untouched. -/
theorem handlePublish_exits (s : ProjectState) (env : PublishEnv)
    (a : AbortSpec) (ha : okAbort a) (hwf : wfPublishEnv env) :
    exitClauses (handlePublish s env a) .deployed .ready ∧
    ((handlePublish s env a).exit = .skipped →
      handlePublish s env a = ⟨s, [], .skipped⟩) := by
  obtain ⟨hwf1, hwf2, hwf3, hwf4, hwf5, hwf6⟩ := hwf
  unfold handlePublish
  by_cases hskip : (s.githubConfig.repo == "" || s.githubConfig.token == "") = true
  · rw [if_pos hskip]
    refine ⟨⟨?_, ?_, ?_⟩, fun _ => rfl⟩ <;> intro hx <;> simp at hx
  · rw [if_neg hskip]
    dsimp only []
    have hflag0 : flagSet a (RunCtx.mk (publishSeed s) 0 []).awaits = false := flagSet_zero a
    have habortg : (abortErrGh.name == "AbortError") = true := by decide
    rcases githubCall_cases a "fetchRepoDetails" env.detailsRes ⟨publishSeed s, 0, []⟩ ha hflag0 hwf1 with
      ⟨details, ctx1, _h1, hcall1, _hst1, hflag1, _hc1⟩ |
      ⟨e1, ctx1, hcall1, hname1, _hst1, _hc1⟩ | ⟨ctx1, hcall1, hra1, _⟩
    · rw [hcall1]
      simp only [StepR.bind]
      -- the conditional repository creation
      have hcond : (∃ ctx2, (match details with
            | none => githubCall a "createRepo" env.createRes ctx1
            | some _ => StepR.ok () ctx1) = .ok () ctx2 ∧
            flagSet a ctx2.awaits = false) ∨
          (∃ e ctx2, (match details with
            | none => githubCall a "createRepo" env.createRes ctx1
            | some _ => StepR.ok () ctx1) = .exn e ctx2 ∧ e.name ≠ "AbortError") ∨
          (∃ ctx2, (match details with
            | none => githubCall a "createRepo" env.createRes ctx1
            | some _ => StepR.ok () ctx1) = .exn abortErrGh ctx2 ∧
            restingAfterAbort ctx2.st) := by
        cases details with
        | none =>
          rcases githubCall_cases a "createRepo" env.createRes ctx1 ha hflag1 hwf2 with
            ⟨u, ctx2, _hx, hc, _hs, hf2, _hcx⟩ | ⟨e, ctx2, hc, hn, _hs, _hcx⟩ | ⟨ctx2, hc, hr, _⟩
          · exact Or.inl ⟨ctx2, hc, hf2⟩
          · exact Or.inr (Or.inl ⟨e, ctx2, hc, hn⟩)
          · exact Or.inr (Or.inr ⟨ctx2, hc, hr⟩)
        | some d => exact Or.inl ⟨ctx1, rfl, hflag1⟩
      rcases hcond with ⟨ctx2, hcall2, hflag2⟩ | ⟨e2, ctx2, hcall2, hname2⟩ | ⟨ctx2, hcall2, hra2⟩
      · rw [hcall2]
        simp only [StepR.bind]
        have hflag4 : flagSet a (setTaskCtx (setTaskCtx ctx2 "check-repo" TaskStatus.completed) "push-files" TaskStatus.running).awaits = false := hflag2
        rcases geminiCallNoSignal_cases a "generateReadme" env.readmeRes (setTaskCtx (setTaskCtx ctx2 "check-repo" TaskStatus.completed) "push-files" TaskStatus.running) ha hflag4 hwf3 with
          ⟨readme, ctx5, _h3, hcall3, hdisj5, _hc3⟩ |
          ⟨e3, ctx5, hcall3, hname3, _hc3b⟩
        · rw [hcall3]
          simp only [StepR.bind]
          have hinv5 : flagSet a ctx5.awaits = false ∨ restingAfterAbort ctx5.st := by
            rcases hdisj5 with ⟨hf, _⟩ | hr
            · exact Or.inl hf
            · exact Or.inr hr
          rcases pubLoop_cases a env ha hwf4 hwf5 (publishFiles s.hubs s.articles readme) 0 ctx5 hinv5 with
            ⟨ctx6, hloop, hdisj6⟩ | ⟨e4, ctx6, hloop, hname4⟩ | ⟨ctx6, hloop, hra6⟩
          · rw [hloop]
            simp only [StepR.bind]
            by_cases hflag6 : flagSet a ctx6.awaits = true
            · have hr6 : restingAfterAbort ctx6.st := by
                rcases hdisj6 with hf | hr
                · rw [hf] at hflag6; exact absurd hflag6 (by simp)
                · exact hr
              have hflag8 : flagSet a (setTaskCtx (setTaskCtx ctx6 "push-files" TaskStatus.completed) "enable-pages" TaskStatus.running).awaits = true := hflag6
              obtain ⟨ctx9, hcall4, hst9⟩ := githubCall_flagTrue a "enablePages" env.enableRes (setTaskCtx (setTaskCtx ctx6 "push-files" TaskStatus.completed) "enable-pages" TaskStatus.running) hflag8
              rw [hcall4]
              simp only [StepR.bind, habortg, if_true, exitClauses]
              have hr9 : restingAfterAbort ctx9.st := by
                rw [hst9]
                exact setTaskCtx_resting (setTaskCtx_resting hr6 "push-files" TaskStatus.completed) "enable-pages" TaskStatus.running
              refine ⟨⟨by intro hx; simp at hx, by intro hx; simp at hx, fun _ => hr9⟩, by intro hx; simp at hx⟩
            · have hflag6' : flagSet a ctx6.awaits = false := by simpa using hflag6
              have hflag8 : flagSet a (setTaskCtx (setTaskCtx ctx6 "push-files" TaskStatus.completed) "enable-pages" TaskStatus.running).awaits = false := hflag6'
              rcases githubCall_cases a "enablePages" env.enableRes (setTaskCtx (setTaskCtx ctx6 "push-files" TaskStatus.completed) "enable-pages" TaskStatus.running) ha hflag8 hwf6 with
                ⟨u, ctx9, _h5, hcall4, _hst9, _hflag9, _hc5⟩ |
                ⟨e5, ctx9, hcall4, hname5, _hst9, _hc5⟩ | ⟨ctx9, hcall4, hra9, _⟩
              · rw [hcall4]
                simp [StepR.bind, exitClauses, updSt, setTaskCtx]
              · rw [hcall4]
                have hb : (e5.name == "AbortError") = false := by
                  simpa [beq_eq_false_iff_ne] using hname5
                simp [StepR.bind, exitClauses, hb, fatalResetReady, restingAfterAbort]
              · rw [hcall4]
                simp only [StepR.bind, habortg, if_true, exitClauses]
                refine ⟨⟨by intro hx; simp at hx, by intro hx; simp at hx, fun _ => hra9⟩, by intro hx; simp at hx⟩
          · rw [hloop]
            have hb : (e4.name == "AbortError") = false := by
              simpa [beq_eq_false_iff_ne] using hname4
            simp [StepR.bind, exitClauses, hb, fatalResetReady, restingAfterAbort]
          · rw [hloop]
            simp only [StepR.bind, habortg, if_true, exitClauses]
            refine ⟨⟨by intro hx; simp at hx, by intro hx; simp at hx, fun _ => hra6⟩, by intro hx; simp at hx⟩
        · rw [hcall3]
          have hb : (e3.name == "AbortError") = false := by
            simpa [beq_eq_false_iff_ne] using hname3
          simp [StepR.bind, exitClauses, hb, fatalResetReady, restingAfterAbort]
      · rw [hcall2]
        have hb : (e2.name == "AbortError") = false := by
          simpa [beq_eq_false_iff_ne] using hname2
        simp [StepR.bind, exitClauses, hb, fatalResetReady, restingAfterAbort]
      · rw [hcall2]
        simp only [StepR.bind, habortg, if_true, exitClauses]
        refine ⟨⟨by intro hx; simp at hx, by intro hx; simp at hx, fun _ => hra2⟩, by intro hx; simp at hx⟩
    · rw [hcall1]
      have hb : (e1.name == "AbortError") = false := by
        simpa [beq_eq_false_iff_ne] using hname1
      simp [StepR.bind, exitClauses, hb, fatalResetReady, restingAfterAbort]
    · rw [hcall1]
      simp only [StepR.bind, habortg, if_true, exitClauses]
      refine ⟨⟨by intro hx; simp at hx, by intro hx; simp at hx, fun _ => hra1⟩, by intro hx; simp at hx⟩

/-! ## Environment fixtures -/

/-- A fully succeeding Build environment. -/
def buildEnvOk : BuildEnv :=
  ⟨.ok sampleIdentity, .ok ([hubOne, hubTwo], "rationale"),
   fun _ => .ok "html", .ok "indexHtml"⟩

/-- A Build environment whose identity call fails fatally. -/
def buildEnvIdFail : BuildEnv :=
  { buildEnvOk with identityRes := .error fatalErrFx }

/-- A Tune environment whose first refactor call succeeds and whose second
fails fatally. -/
def tuneEnvPartial : TuneEnv :=
  ⟨.ok ⟨"summary", ["step one"]⟩,
   fun k => if k == 0 then .ok "NEW" else .error fatalErrFx⟩

/-- A fully succeeding Tune environment. -/
def tuneEnvOk : TuneEnv :=
  ⟨.ok ⟨"summary", ["step one"]⟩, fun _ => .ok "NEW"⟩

/-- A Publish environment, parameterised by the outcome of the
pages-enabling call, with the repository reported present. -/
def publishEnvWith (enable : Except GErr Unit) : PublishEnv :=
  ⟨.ok (some ⟨"main"⟩), .ok (), .ok "readme", fun _ => .ok none,
   fun _ => .ok (), enable⟩

/-- A Publish environment with the repository reported absent. -/
def publishEnvAbsent : PublishEnv :=
  { publishEnvWith (.ok ()) with detailsRes := .ok none }

/-- C1 (amended).  Under any cancellation schedule whose aborted in-flight
call does not complete: every runner's success exit rests at its terminal
status (`ready`, or `deployed` for Publish) with an empty ledger and a
cleared detail line; every fatal exit rests likewise, but at the runner's
own fixed fallback — `idle` for Build and Import, `ready` for Tune and
Publish — regardless of whether an identity exists; every aborted exit is
exactly the abort handler's reset: empty ledger, cleared detail, `ready`
iff an identity exists and `idle` otherwise; and a guard-clause exit leaves
the state untouched. -/
theorem pipelines_resting_C1_amended (a : AbortSpec) (ha : okAbort a) :
    (∀ (s : ProjectState) (env : BuildEnv), wfBuildEnv env →
      exitClauses (handleInitialBuild s env a) .ready .idle ∧
      (handleInitialBuild s env a).exit ≠ .skipped) ∧
    (∀ (s : ProjectState) (instr target : String) (env : TuneEnv),
      wfRes env.planRes → (∀ k, wfRes (env.tuneRes k)) →
      exitClauses (handleTuneDesign s instr target env a) .ready .ready ∧
      ((handleTuneDesign s instr target env a).exit = .skipped →
        handleTuneDesign s instr target env a = ⟨s, [], .skipped⟩)) ∧
    (∀ (s : ProjectState) (repo token : String) (env : ImportEnv),
      wfImportEnv env →
      exitClauses (handleImport s repo token env a) .ready .idle ∧
      ((handleImport s repo token env a).exit = .skipped →
        handleImport s repo token env a = ⟨s, [], .skipped⟩)) ∧
    (∀ (s : ProjectState) (env : PublishEnv), wfPublishEnv env →
      exitClauses (handlePublish s env a) .deployed .ready ∧
      ((handlePublish s env a).exit = .skipped →
        handlePublish s env a = ⟨s, [], .skipped⟩)) := by
  refine ⟨?_, ?_, ?_, ?_⟩
  · intro s env hwf
    exact handleInitialBuild_exits s env a ha hwf
  · intro s instr target env hwfp hwft
    have h := handleTuneDesign_exits s instr target env a ha hwfp hwft
    exact ⟨h.1, h.2.1⟩
  · intro s repo token env hwf
    exact handleImport_exits s repo token env a ha hwf
  · intro s env hwf
    exact handlePublish_exits s env a ha hwf

/-- Witness for the amended C1: a fully successful never-aborted Build run
rests at `ready` with a cleared ledger and detail line, and a fatally
failing Publish run rests at `ready`. -/
theorem pipelines_resting_C1_amended_witness :
    ((handleInitialBuild freshState buildEnvOk .never).st.status = .ready ∧
     (handleInitialBuild freshState buildEnvOk .never).st.executionPlan = [] ∧
     (handleInitialBuild freshState buildEnvOk .never).st.currentDetail = none) ∧
    ((handlePublish readyState (publishEnvWith (.error fatalErrFx)) .never).st.status = .ready ∧
     (handlePublish readyState (publishEnvWith (.error fatalErrFx)) .never).st.executionPlan = [] ∧
     (handlePublish readyState (publishEnvWith (.error fatalErrFx)) .never).st.currentDetail = none) := by
  constructor
  · exact ((pipelines_resting_C1_amended .never (Or.inl rfl)).1 freshState buildEnvOk
      ⟨(fun _ h => nomatch h), (fun _ h => nomatch h), (fun _ _ h => nomatch h),
       (fun _ h => nomatch h)⟩).1.1 rfl
  · exact ((pipelines_resting_C1_amended .never (Or.inl rfl)).2.2.2 readyState
      (publishEnvWith (.error fatalErrFx))
      ⟨(fun _ h => nomatch h), (fun _ h => nomatch h), (fun _ h => nomatch h),
       (fun _ _ h => nomatch h), (fun _ _ h => nomatch h),
       (fun _ h => by injection h with h1; rw [← h1]; decide)⟩).1.2.1 rfl

/-- Counterexample to C1 as stated.  (a) A Build run that fails fatally in
its identity call while an identity from an earlier run is present ends at
`idle`, not the claimed `ready`.  (b) A cancellation that fires while the
in-flight identity call is running, when that call still completes
successfully, lets the runner write the next phase status after the abort
handler's reset: the run ends with status `generating_strategy` — not a
resting status — and a non-cleared detail line. -/
theorem pipelines_resting_C1_cex :
    ((handleInitialBuild readyState buildEnvIdFail .never).exit = .fatal ∧
     (handleInitialBuild readyState buildEnvIdFail .never).st.identity.isSome = true ∧
     (handleInitialBuild readyState buildEnvIdFail .never).st.status = .idle ∧
     Status.idle ≠ .ready) ∧
    ((handleInitialBuild freshState buildEnvOk (.during 0 true)).exit = .aborted ∧
     (handleInitialBuild freshState buildEnvOk (.during 0 true)).st.status = .generating_strategy ∧
     Status.generating_strategy.isResting = false ∧
     (handleInitialBuild freshState buildEnvOk (.during 0 true)).st.currentDetail ≠ none) :=
  ⟨⟨rfl, rfl, rfl, by decide⟩, ⟨rfl, rfl, rfl, by decide⟩⟩

/-- C2 (amended).  When the Tune pipeline's per-target loop fails fatally
after completing any number of targets, the pipeline still ends with
status `ready`, an empty ledger and a cleared detail line — but none of
the already-refactored markup is retained: the rewritten pages live only
in local copies that are committed to the project state after the whole
loop, so on a fatal exit every page, refactored or not, is unchanged. -/
theorem tune_fatal_discards_C2_amended (s : ProjectState)
    (instr target : String) (env : TuneEnv)
    (hwfp : wfRes env.planRes) (hwft : ∀ k, wfRes (env.tuneRes k))
    (hfatal : (handleTuneDesign s instr target env .never).exit = .fatal) :
    (handleTuneDesign s instr target env .never).st.status = .ready ∧
    (handleTuneDesign s instr target env .never).st.executionPlan = [] ∧
    (handleTuneDesign s instr target env .never).st.currentDetail = none ∧
    (handleTuneDesign s instr target env .never).st.hubs = s.hubs ∧
    (handleTuneDesign s instr target env .never).st.articles = s.articles := by
  have h := handleTuneDesign_exits s instr target env .never (Or.inl rfl) hwfp hwft
  obtain ⟨h1, h2, h3⟩ := h.1.2.1 hfatal
  obtain ⟨h4, h5⟩ := h.2.2 hfatal
  exact ⟨h1, h2, h3, h4, h5⟩

/-- Witness for the amended C2: with two hubs and an environment whose
first refactor succeeds and whose second fails fatally, the run ends
`ready` with both hubs carrying their original markup. -/
theorem tune_fatal_discards_C2_amended_witness :
    (handleTuneDesign readyState "make it dark" "all" tuneEnvPartial .never).exit = .fatal ∧
    (handleTuneDesign readyState "make it dark" "all" tuneEnvPartial .never).st.status = .ready ∧
    (handleTuneDesign readyState "make it dark" "all" tuneEnvPartial .never).st.hubs = readyState.hubs :=
  ⟨rfl,
   (tune_fatal_discards_C2_amended readyState "make it dark" "all" tuneEnvPartial
     (fun _ h => nomatch h)
     (fun k e h => by
       by_cases hk : k = 0
       · subst hk; simp [tuneEnvPartial] at h
       · simp [tuneEnvPartial, hk] at h
         rw [← h]
         decide)
     rfl).1,
   (tune_fatal_discards_C2_amended readyState "make it dark" "all" tuneEnvPartial
     (fun _ h => nomatch h)
     (fun k e h => by
       by_cases hk : k = 0
       · subst hk; simp [tuneEnvPartial] at h
       · simp [tuneEnvPartial, hk] at h
         rw [← h]
         decide)
     rfl).2.2.2.1⟩

/-- Counterexample to C2 as stated: in a Tune run over two hubs whose
first refactor call returns new markup and whose second fails fatally, the
final state keeps the first hub's original markup `"A"` — the completed
refactor's `"NEW"` markup is not retained. -/
theorem tune_retention_C2_cex :
    tuneEnvPartial.tuneRes 0 = .ok "NEW" ∧
    (handleTuneDesign readyState "make it dark" "all" tuneEnvPartial .never).exit = .fatal ∧
    (handleTuneDesign readyState "make it dark" "all" tuneEnvPartial .never).st.status = .ready ∧
    ((handleTuneDesign readyState "make it dark" "all" tuneEnvPartial .never).st.hubs.map
      fun h => h.html) = [some "A", some "B"] ∧
    some "A" ≠ some "NEW" :=
  ⟨rfl, rfl, rfl, rfl, by decide⟩

/-- Under the never-aborted schedule, the upload loop only ever appends
`getFile`/`putFile` entries to the call trace — in particular it never
invokes `createRepo`. -/
theorem pubLoop_never_calls (env : PublishEnv) :
    ∀ (files : List (String × String)) (k : Nat) (ctx : RunCtx),
      ∃ w ctx',
        (pubLoop .never env files k ctx = .ok () ctx' ∨
          ∃ e, pubLoop .never env files k ctx = .exn e ctx') ∧
        ctx'.calls = ctx.calls ++ w ∧ "createRepo" ∉ w := by
  intro files
  induction files with
  | nil =>
    intro k ctx
    exact ⟨[], ctx, Or.inl rfl, by simp, by simp⟩
  | cons file rest ih =>
    intro k ctx
    obtain ⟨path, content⟩ := file
    simp only [pubLoop]
    rw [if_neg (by simp [flagSet])]
    set ctx1 := updSt ctx (fun st => { st with currentDetail := some ("送信中: " ++ path) }) with hctx1
    rcases hsha : githubCallCaught .never "getFile" (env.checkRes k) ctx1 with ⟨sha, ctx2⟩
    have hcalls2 : ctx2.calls = ctx.calls ++ ["getFile"] := by
      have h := hsha
      unfold githubCallCaught at h
      cases hc : env.checkRes k with
      | ok v =>
        rw [hc] at h
        simp only [githubCall] at h
        simp only [Prod.mk.injEq] at h
        rw [← h.2]
        rfl
      | error e =>
        rw [hc] at h
        simp only [githubCall] at h
        simp only [Prod.mk.injEq] at h
        rw [← h.2]
        rfl
    simp only [hsha]
    cases hp : env.putRes k with
    | ok u =>
      have hput : githubCall .never "putFile" (.ok u : Except GErr Unit) ctx2 = .ok u { ctx2 with awaits := ctx2.awaits + 1, calls := ctx2.calls ++ ["putFile"] } := rfl
      rw [hput]
      simp only [StepR.bind]
      obtain ⟨w, ctx', hres, hcalls, hmem⟩ :=
        ih (k + 1) { ctx2 with awaits := ctx2.awaits + 1, calls := ctx2.calls ++ ["putFile"] }
      refine ⟨"getFile" :: "putFile" :: w, ctx', hres, ?_, ?_⟩
      · rw [hcalls]
        simp [hcalls2]
      · simp only [List.mem_cons]
        push_neg
        exact ⟨by decide, by decide, hmem⟩
    | error e =>
      have hput : githubCall .never "putFile" (.error e : Except GErr Unit) ctx2 = .exn e { ctx2 with awaits := ctx2.awaits + 1, calls := ctx2.calls ++ ["putFile"] } := rfl
      rw [hput]
      simp only [StepR.bind]
      refine ⟨["getFile", "putFile"], _, Or.inr ⟨e, rfl⟩, ?_, by decide⟩
      show ctx2.calls ++ ["putFile"] = ctx.calls ++ ["getFile", "putFile"]
      rw [hcalls2]
      simp

/-- A bind whose head has already completed reduces to its continuation. -/
theorem stepBind_ok {A B : Type} (v : A) (c : RunCtx) (k : A → RunCtx → StepR B) :
    StepR.bind (StepR.ok v c) k = k v c := rfl

/-- A bind whose head raised propagates the exception unchanged. -/
theorem stepBind_exn {A B : Type} (e : GErr) (c : RunCtx) (k : A → RunCtx → StepR B) :
    StepR.bind (StepR.exn e c) k = StepR.exn e c := rfl

/-- C7.  In a never-aborted Publish run whose guard passes: if the
repository-metadata fetch reports the repository present, `createRepo` is
never invoked; if it reports the repository absent, the first two remote
calls are the metadata fetch followed immediately by `createRepo`, so
`createRepo` precedes every file push. -/
theorem publish_createRepo_C7 (s : ProjectState) (env : PublishEnv)
    (hpre : (s.githubConfig.repo == "" || s.githubConfig.token == "") = false)
    (hwf : wfPublishEnv env) :
    ((∃ d, env.detailsRes = .ok (some d)) →
      "createRepo" ∉ (handlePublish s env .never).calls) ∧
    (env.detailsRes = .ok none →
      (∃ rest, (handlePublish s env .never).calls =
        "fetchRepoDetails" :: "createRepo" :: rest) ∧
      (∀ i (h : i < (handlePublish s env .never).calls.length),
        (handlePublish s env .never).calls.get ⟨i, h⟩ = "putFile" →
        ∃ j, ∃ h2 : j < (handlePublish s env .never).calls.length, j < i ∧
          (handlePublish s env .never).calls.get ⟨j, h2⟩ = "createRepo")) := by
  obtain ⟨hwf1, hwf2, hwf3, hwf4, hwf5, hwf6⟩ := hwf
  have hrest : ∀ (ctx : RunCtx), ∃ w,
      (∀ v c, (StepR.bind (geminiCallNoSignal .never "generateReadme" env.readmeRes ctx) fun readme ctx5 =>
          StepR.bind (pubLoop .never env (publishFiles s.hubs s.articles readme) 0 ctx5) fun _ ctx6 =>
          StepR.bind (githubCall .never "enablePages" env.enableRes
            (setTaskCtx (setTaskCtx ctx6 "push-files" TaskStatus.completed) "enable-pages" TaskStatus.running)) fun _ ctx9 =>
          StepR.ok () (updSt (setTaskCtx ctx9 "enable-pages" TaskStatus.completed) fun st =>
            { st with status := Status.deployed, executionPlan := [], currentDetail := none })) = .ok v c → c.calls = ctx.calls ++ w) ∧
      (∀ e c, (StepR.bind (geminiCallNoSignal .never "generateReadme" env.readmeRes ctx) fun readme ctx5 =>
          StepR.bind (pubLoop .never env (publishFiles s.hubs s.articles readme) 0 ctx5) fun _ ctx6 =>
          StepR.bind (githubCall .never "enablePages" env.enableRes
            (setTaskCtx (setTaskCtx ctx6 "push-files" TaskStatus.completed) "enable-pages" TaskStatus.running)) fun _ ctx9 =>
          StepR.ok () (updSt (setTaskCtx ctx9 "enable-pages" TaskStatus.completed) fun st =>
            { st with status := Status.deployed, executionPlan := [], currentDetail := none })) = .exn e c → c.calls = ctx.calls ++ w) ∧
      (∀ c, (StepR.bind (geminiCallNoSignal .never "generateReadme" env.readmeRes ctx) fun readme ctx5 =>
          StepR.bind (pubLoop .never env (publishFiles s.hubs s.articles readme) 0 ctx5) fun _ ctx6 =>
          StepR.bind (githubCall .never "enablePages" env.enableRes
            (setTaskCtx (setTaskCtx ctx6 "push-files" TaskStatus.completed) "enable-pages" TaskStatus.running)) fun _ ctx9 =>
          StepR.ok () (updSt (setTaskCtx ctx9 "enable-pages" TaskStatus.completed) fun st =>
            { st with status := Status.deployed, executionPlan := [], currentDetail := none })) = .ret c → False) ∧
      "createRepo" ∉ w := by
    intro ctx
    rcases geminiCallNoSignal_cases .never "generateReadme" env.readmeRes ctx (Or.inl rfl)
        rfl hwf3 with
      ⟨readme, ctx5, _h3, hcall3, _hdisj5, hc3⟩ | ⟨e3, ctx5, hcall3, _hname3, hc3⟩
    · obtain ⟨w, ctx6, hres, hcalls6, hmem6⟩ :=
        pubLoop_never_calls env (publishFiles s.hubs s.articles readme) 0 ctx5
      rcases hres with hok | ⟨e4, hexn⟩
      · rcases githubCall_cases .never "enablePages" env.enableRes
            (setTaskCtx (setTaskCtx ctx6 "push-files" TaskStatus.completed) "enable-pages" TaskStatus.running)
            (Or.inl rfl) rfl hwf6 with
          ⟨u, ctx9, _h5, hcall4, _hst9, _hflag9, hc5⟩ |
          ⟨e5, ctx9, hcall4, _hname5, _hst9, hc5⟩ | ⟨ctx9, hcall4, _⟩
        · refine ⟨"generateReadme" :: (w ++ ["enablePages"]), ?_, ?_, ?_, ?_⟩
          · intro v c hbody
            rw [hcall3] at hbody
            simp only [StepR.bind] at hbody
            rw [hok] at hbody
            simp only [StepR.bind] at hbody
            rw [hcall4] at hbody
            simp only [StepR.bind] at hbody
            injection hbody with h1 h2
            rw [← h2]
            show ctx9.calls = ctx.calls ++ ("generateReadme" :: (w ++ ["enablePages"]))
            rw [hc5, show (setTaskCtx (setTaskCtx ctx6 "push-files" TaskStatus.completed) "enable-pages" TaskStatus.running).calls = ctx6.calls from rfl, hcalls6, hc3]
            simp
          · intro e c hbody
            rw [hcall3] at hbody
            simp only [StepR.bind] at hbody
            rw [hok] at hbody
            simp only [StepR.bind] at hbody
            rw [hcall4] at hbody
            simp only [StepR.bind] at hbody
            exact absurd hbody (by simp)
          · intro c hbody
            rw [hcall3] at hbody
            simp only [StepR.bind] at hbody
            rw [hok] at hbody
            simp only [StepR.bind] at hbody
            rw [hcall4] at hbody
            simp only [StepR.bind] at hbody
            exact absurd hbody (by simp)
          · simp only [List.mem_cons, List.mem_append, List.mem_singleton]
            push_neg
            exact ⟨by decide, hmem6, by decide⟩
        · refine ⟨"generateReadme" :: (w ++ ["enablePages"]), ?_, ?_, ?_, ?_⟩
          · intro v c hbody
            rw [hcall3] at hbody
            simp only [StepR.bind] at hbody
            rw [hok] at hbody
            simp only [StepR.bind] at hbody
            rw [hcall4] at hbody
            simp only [StepR.bind] at hbody
            exact absurd hbody (by simp)
          · intro e c hbody
            rw [hcall3] at hbody
            simp only [StepR.bind] at hbody
            rw [hok] at hbody
            simp only [StepR.bind] at hbody
            rw [hcall4] at hbody
            simp only [StepR.bind] at hbody
            injection hbody with h1 h2
            rw [← h2]
            show ctx9.calls = ctx.calls ++ ("generateReadme" :: (w ++ ["enablePages"]))
            rw [hc5, show (setTaskCtx (setTaskCtx ctx6 "push-files" TaskStatus.completed) "enable-pages" TaskStatus.running).calls = ctx6.calls from rfl, hcalls6, hc3]
            simp
          · intro c hbody
            rw [hcall3] at hbody
            simp only [StepR.bind] at hbody
            rw [hok] at hbody
            simp only [StepR.bind] at hbody
            rw [hcall4] at hbody
            simp only [StepR.bind] at hbody
            exact absurd hbody (by simp)
          · simp only [List.mem_cons, List.mem_append, List.mem_singleton]
            push_neg
            exact ⟨by decide, hmem6, by decide⟩
        · exfalso
          cases henr : env.enableRes with
          | ok v =>
            rw [henr] at hcall4
            simp [githubCall] at hcall4
          | error e6 =>
            rw [henr] at hcall4
            simp only [githubCall] at hcall4
            injection hcall4 with h1 h2
            exact (hwf6 e6 henr) (by rw [h1]; rfl)
      · refine ⟨"generateReadme" :: w, ?_, ?_, ?_, ?_⟩
        · intro v c hbody
          rw [hcall3] at hbody
          simp only [StepR.bind] at hbody
          rw [hexn] at hbody
          simp only [StepR.bind] at hbody
          exact absurd hbody (by simp)
        · intro e c hbody
          rw [hcall3] at hbody
          simp only [StepR.bind] at hbody
          rw [hexn] at hbody
          simp only [StepR.bind] at hbody
          injection hbody with h1 h2
          rw [← h2]
          show ctx6.calls = ctx.calls ++ ("generateReadme" :: w)
          rw [hcalls6, hc3]
          simp
        · intro c hbody
          rw [hcall3] at hbody
          simp only [StepR.bind] at hbody
          rw [hexn] at hbody
          simp only [StepR.bind] at hbody
          exact absurd hbody (by simp)
        · simp only [List.mem_cons]
          push_neg
          exact ⟨by decide, hmem6⟩
    · refine ⟨["generateReadme"], ?_, ?_, ?_, by decide⟩
      · intro v c hbody
        rw [hcall3] at hbody
        simp only [StepR.bind] at hbody
        exact absurd hbody (by simp)
      · intro e c hbody
        rw [hcall3] at hbody
        simp only [StepR.bind] at hbody
        injection hbody with h1 h2
        rw [← h2]
        exact hc3
      · intro c hbody
        rw [hcall3] at hbody
        simp only [StepR.bind] at hbody
        exact absurd hbody (by simp)
  constructor
  · rintro ⟨d, hd⟩
    unfold handlePublish
    rw [if_neg (by simp [hpre])]
    dsimp only []
    rw [hd]
    have hc1 : githubCall .never "fetchRepoDetails" (.ok (some d) : Except GErr (Option RepoDetails)) ⟨publishSeed s, 0, []⟩ = .ok (some d) ⟨publishSeed s, 1, ["fetchRepoDetails"]⟩ := rfl
    rw [hc1]
    simp only [stepBind_ok]
    obtain ⟨w, hwok, hwexn, hwret, hmem⟩ := hrest (setTaskCtx (setTaskCtx ⟨publishSeed s, 1, ["fetchRepoDetails"]⟩ "check-repo" TaskStatus.completed) "push-files" TaskStatus.running)
    cases hbody : (StepR.bind (geminiCallNoSignal .never "generateReadme" env.readmeRes (setTaskCtx (setTaskCtx ⟨publishSeed s, 1, ["fetchRepoDetails"]⟩ "check-repo" TaskStatus.completed) "push-files" TaskStatus.running)) fun readme ctx5 =>
          StepR.bind (pubLoop .never env (publishFiles s.hubs s.articles readme) 0 ctx5) fun _ ctx6 =>
          StepR.bind (githubCall .never "enablePages" env.enableRes
            (setTaskCtx (setTaskCtx ctx6 "push-files" TaskStatus.completed) "enable-pages" TaskStatus.running)) fun _ ctx9 =>
          StepR.ok () (updSt (setTaskCtx ctx9 "enable-pages" TaskStatus.completed) fun st =>
            { st with status := Status.deployed, executionPlan := [], currentDetail := none })) with
    | ok v c =>
      have hcalls := hwok v c hbody
      show "createRepo" ∉ c.calls
      rw [hcalls]
      intro hin
      rw [List.mem_append] at hin
      rcases hin with h | h
      · exact absurd h (by simp [setTaskCtx, updSt])
      · exact hmem h
    | ret c =>
      exact (hwret c hbody).elim
    | exn e c =>
      have hcalls := hwexn e c hbody
      show "createRepo" ∉ (if (e.name == "AbortError") = true then RunResult.mk c.st c.calls ExitKind.aborted else RunResult.mk (fatalResetReady c.st) c.calls ExitKind.fatal).calls
      rw [show (if (e.name == "AbortError") = true then RunResult.mk c.st c.calls ExitKind.aborted else RunResult.mk (fatalResetReady c.st) c.calls ExitKind.fatal).calls = c.calls from by split <;> rfl]
      rw [hcalls]
      intro hin
      rw [List.mem_append] at hin
      rcases hin with h | h
      · exact absurd h (by simp [setTaskCtx, updSt])
      · exact hmem h
  · intro hd
    have hmain : ∃ rest, (handlePublish s env .never).calls =
        "fetchRepoDetails" :: "createRepo" :: rest := by
      unfold handlePublish
      rw [if_neg (by simp [hpre])]
      dsimp only []
      rw [hd]
      have hc1 : githubCall .never "fetchRepoDetails" (.ok none : Except GErr (Option RepoDetails)) ⟨publishSeed s, 0, []⟩ = .ok none ⟨publishSeed s, 1, ["fetchRepoDetails"]⟩ := rfl
      rw [hc1]
      simp only [stepBind_ok]
      cases hcr : env.createRes with
      | ok u =>
        have hc2 : githubCall .never "createRepo" (.ok u : Except GErr Unit) ⟨publishSeed s, 1, ["fetchRepoDetails"]⟩ = .ok u ⟨publishSeed s, 2, ["fetchRepoDetails", "createRepo"]⟩ := rfl
        rw [hc2]
        simp only [stepBind_ok]
        obtain ⟨w, hwok, hwexn, hwret, _⟩ := hrest (setTaskCtx (setTaskCtx ⟨publishSeed s, 2, ["fetchRepoDetails", "createRepo"]⟩ "check-repo" TaskStatus.completed) "push-files" TaskStatus.running)
        cases hbody : (StepR.bind (geminiCallNoSignal .never "generateReadme" env.readmeRes (setTaskCtx (setTaskCtx ⟨publishSeed s, 2, ["fetchRepoDetails", "createRepo"]⟩ "check-repo" TaskStatus.completed) "push-files" TaskStatus.running)) fun readme ctx5 =>
          StepR.bind (pubLoop .never env (publishFiles s.hubs s.articles readme) 0 ctx5) fun _ ctx6 =>
          StepR.bind (githubCall .never "enablePages" env.enableRes
            (setTaskCtx (setTaskCtx ctx6 "push-files" TaskStatus.completed) "enable-pages" TaskStatus.running)) fun _ ctx9 =>
          StepR.ok () (updSt (setTaskCtx ctx9 "enable-pages" TaskStatus.completed) fun st =>
            { st with status := Status.deployed, executionPlan := [], currentDetail := none })) with
        | ok v c =>
          have hcalls := hwok v c hbody
          refine ⟨w, ?_⟩
          show c.calls = _
          rw [hcalls]
          rfl
        | ret c =>
          exact (hwret c hbody).elim
        | exn e c =>
          have hcalls := hwexn e c hbody
          refine ⟨w, ?_⟩
          show (if (e.name == "AbortError") = true then RunResult.mk c.st c.calls ExitKind.aborted else RunResult.mk (fatalResetReady c.st) c.calls ExitKind.fatal).calls = _
          rw [show (if (e.name == "AbortError") = true then RunResult.mk c.st c.calls ExitKind.aborted else RunResult.mk (fatalResetReady c.st) c.calls ExitKind.fatal).calls = c.calls from by split <;> rfl]
          rw [hcalls]
          rfl
      | error e =>
        have hc2 : githubCall .never "createRepo" (.error e : Except GErr Unit) ⟨publishSeed s, 1, ["fetchRepoDetails"]⟩ = .exn e ⟨publishSeed s, 2, ["fetchRepoDetails", "createRepo"]⟩ := rfl
        rw [hc2]
        simp only [stepBind_exn]
        refine ⟨[], ?_⟩
        split <;> rfl
    refine ⟨hmain, ?_⟩
    obtain ⟨rest, hrest2⟩ := hmain
    intro i h hput
    refine ⟨1, ?_, ?_, ?_⟩
    · rw [hrest2]
      simp only [List.length_cons]
      omega
    · by_contra hlt
      push_neg at hlt
      interval_cases i
      · rw [List.get_of_eq hrest2] at hput
        simp at hput
      · rw [List.get_of_eq hrest2] at hput
        simp at hput
    · rw [List.get_of_eq hrest2]
      rfl

/-- Witness for C7: with the repository reported absent, the concrete run's
ledger starts `fetchRepoDetails`, `createRepo`; with it reported present,
`createRepo` never appears. -/
theorem publish_createRepo_C7_witness :
    ((readyState.githubConfig.repo == "" || readyState.githubConfig.token == "") = false ∧
     (∃ rest, (handlePublish readyState publishEnvAbsent .never).calls =
       "fetchRepoDetails" :: "createRepo" :: rest)) ∧
    "createRepo" ∉ (handlePublish readyState (publishEnvWith (.ok ())) .never).calls := by
  constructor
  · refine ⟨by decide, ?_⟩
    exact ((publish_createRepo_C7 readyState publishEnvAbsent (by decide)
      ⟨(fun _ h => nomatch h), (fun _ h => nomatch h), (fun _ h => nomatch h),
       (fun _ _ h => nomatch h), (fun _ _ h => nomatch h),
       (fun _ h => nomatch h)⟩).2 rfl).1
  · exact (publish_createRepo_C7 readyState (publishEnvWith (.ok ())) (by decide)
      ⟨(fun _ h => nomatch h), (fun _ h => nomatch h), (fun _ h => nomatch h),
       (fun _ _ h => nomatch h), (fun _ _ h => nomatch h),
       (fun _ h => nomatch h)⟩).1 ⟨⟨"main"⟩, rfl⟩

/-- With no abort scheduled, a wrapped generation call that succeeds
returns its value, bumping the await counter and appending to the trace. -/
theorem geminiCall_never_ok {α : Type} (nm : String) (v : α) (ctx : RunCtx) :
    geminiCall .never nm (.ok v) ctx =
      .ok v { ctx with awaits := ctx.awaits + 1, calls := ctx.calls ++ [nm] } := rfl

/-- `flagSet` never fires under the empty abort schedule. -/
theorem flagSet_never (n : Nat) : flagSet .never n = false := rfl

/-- The generation loop under no abort and an all-succeeding environment
returns normally with one enriched hub appended per input hub. -/
theorem buildGenLoop_ok (env : BuildEnv) (hf : Nat → String)
    (hhtml : ∀ k, env.htmlRes k = .ok (hf k)) :
    ∀ (l : List HubPage) (k : Nat) (acc : List HubPage) (ctx : RunCtx),
      ∃ res ctx', buildGenLoop .never env l k acc ctx = .ok res ctx' ∧
        res.length = acc.length + l.length := by
  intro l
  induction l with
  | nil =>
    intro k acc ctx
    exact ⟨acc, ctx, rfl, by simp [buildGenLoop]⟩
  | cons h rest ih =>
    intro k acc ctx
    simp only [buildGenLoop, flagSet_never, Bool.false_eq_true, if_false,
      hhtml k, geminiCall_never_ok, stepBind_ok]
    obtain ⟨res, ctx2, hres, hlen⟩ :=
      ih (k + 1) (acc ++ [{ h with html := some (hf k) }]) _
    refine ⟨res, ctx2, hres, ?_⟩
    rw [hlen]
    simp
    omega

/-- C8.  A never-aborted Build run in which every remote call succeeds —
the strategy call producing the hub list `hubs` — exits through the success
path: final status `ready`, empty ledger, cleared detail line, and a final
hub list of length `hubs.length + 1` whose head is the synthesized
homepage carrying the reserved slug `index`, prepended to the generated
hubs. -/
theorem build_success_C8 (s : ProjectState) (env : BuildEnv)
    (idv : Identity) (hubs : List HubPage) (rat : String)
    (hf : Nat → String) (ix : String)
    (hid : env.identityRes = .ok idv)
    (hstrat : env.strategyRes = .ok (hubs, rat))
    (hhtml : ∀ k, env.htmlRes k = .ok (hf k))
    (hix : env.indexRes = .ok ix) :
    (handleInitialBuild s env .never).exit = .success ∧
    (handleInitialBuild s env .never).st.status = .ready ∧
    (handleInitialBuild s env .never).st.executionPlan = [] ∧
    (handleInitialBuild s env .never).st.currentDetail = none ∧
    (handleInitialBuild s env .never).st.hubs.length = hubs.length + 1 ∧
    ∃ rest, (handleInitialBuild s env .never).st.hubs =
      ⟨"home", "ホーム", "index", "トップページ", some ix⟩ :: rest ∧
      rest.length = hubs.length := by
  unfold handleInitialBuild
  dsimp only []
  rw [hid, geminiCall_never_ok]
  simp only [stepBind_ok]
  rw [hstrat, geminiCall_never_ok]
  simp only [stepBind_ok]
  obtain ⟨res, ctx8, hres, hlen⟩ := buildGenLoop_ok env hf hhtml hubs 0 [] _
  rw [hres]
  simp only [stepBind_ok]
  rw [hix, geminiCall_never_ok]
  simp only [stepBind_ok]
  simp only [List.length_nil, Nat.zero_add] at hlen
  refine ⟨trivial, rfl, rfl, rfl, ?_, res, rfl, hlen⟩
  show (HubPage.mk "home" "ホーム" "index" "トップページ" (some ix) :: res).length = hubs.length + 1
  rw [List.length_cons, hlen]

/-- Witness for C8: the concrete all-succeeding Build run over two strategy
hubs ends ready with three hubs, headed by the homepage. -/
theorem build_success_C8_witness :
    (handleInitialBuild freshState buildEnvOk .never).exit = .success ∧
    (handleInitialBuild freshState buildEnvOk .never).st.status = .ready ∧
    (handleInitialBuild freshState buildEnvOk .never).st.hubs.length = 3 := by
  have h := build_success_C8 freshState buildEnvOk sampleIdentity
    [hubOne, hubTwo] "rationale" (fun _ => "html") "indexHtml"
    rfl rfl (fun _ => rfl) rfl
  refine ⟨h.1, h.2.1, ?_⟩
  rw [h.2.2.2.2.1]
  rfl

/-- C10 (amended).  `enablePages` returns normally for every HTTP response
status below 500 other than 429 — a non-ok such response (404 included) is
only logged as a warning — and a Publish run whose enable call yields such
a status still ends `deployed`; but a 429 or ≥ 500 status is converted to a
thrown error inside the retry layer, so after retries `enablePages` raises
on those statuses too, exactly as it does on transport-level failure or on
cancellation. -/
theorem enablePages_C10_amended :
    (∀ (cfg : GitHubConfig) (res : HttpResponse),
      res.status < 500 → res.status ≠ 429 →
      (enablePages cfg (fun _ => .ok res) none).result = .ok () ∧
      (enablePages cfg (fun _ => .ok res) none).warned =
        (!res.ok && res.status != 409)) ∧
    (∀ (cfg : GitHubConfig) (res : HttpResponse),
      res.status = 429 ∨ 500 ≤ res.status →
      ∃ e, (enablePages cfg (fun _ => .ok res) none).result = .error e) ∧
    (∀ cfg : GitHubConfig,
      (enablePages cfg (fun _ => .error netErrFx) none).result =
        .error (enhanceLastError (some netErrFx))) ∧
    (∀ cfg : GitHubConfig,
      (enablePages cfg (fun _ => .ok ⟨200⟩) (some 0)).result =
        .error abortErrGh) ∧
    (∀ res : HttpResponse, res.status < 500 → res.status ≠ 429 →
      (handlePublish readyState
        (publishEnvWith ((enablePages sampleConfig (fun _ => .ok res) none).result))
        .never).exit = .success ∧
      (handlePublish readyState
        (publishEnvWith ((enablePages sampleConfig (fun _ => .ok res) none).result))
        .never).st.status = .deployed) := by
  have hok : ∀ (cfg : GitHubConfig) (res : HttpResponse),
      res.status < 500 → res.status ≠ 429 →
      (enablePages cfg (fun _ => .ok res) none).result = .ok () ∧
      (enablePages cfg (fun _ => .ok res) none).warned =
        (!res.ok && res.status != 409) := by
    intro cfg res hlt hne
    have hcond : (res.status == 429 || decide (res.status ≥ 500)) = false := by
      simp only [Bool.or_eq_false_iff, beq_eq_false_iff_ne, ne_eq,
        decide_eq_false_iff_not, not_le]
      exact ⟨hne, hlt⟩
    constructor <;>
      simp [enablePages, fetchWithRetry, githubRetries, fetchRetryGo,
        abortedAt, hcond]
  refine ⟨hok, ?_, ?_, ?_, ?_⟩
  · intro cfg res hbad
    have hcond : (res.status == 429 || decide (res.status ≥ 500)) = true := by
      rcases hbad with h | h
      · simp [h]
      · simp [h]
    refine ⟨enhanceLastError (some (httpStatusErr res.status)), ?_⟩
    simp [enablePages, fetchWithRetry, githubRetries, fetchRetryGo,
      abortedAt, hcond, httpStatusErr]
  · intro cfg
    rfl
  · intro cfg
    rfl
  · intro res hlt hne
    have h1 := (hok sampleConfig res hlt hne).1
    rw [h1]
    exact ⟨rfl, rfl⟩

/-- Witness for C10 (amended): a 404 response leaves `enablePages` normal
and warned, the Publish run still deploys; a 429 response makes it raise. -/
theorem enablePages_C10_amended_witness :
    ((404 : Nat) < 500 ∧ (404 : Nat) ≠ 429) ∧
    (enablePages sampleConfig (fun _ => .ok ⟨404⟩) none).result = .ok () ∧
    (enablePages sampleConfig (fun _ => .ok ⟨404⟩) none).warned = true ∧
    (handlePublish readyState
      (publishEnvWith ((enablePages sampleConfig (fun _ => .ok ⟨404⟩) none).result))
      .never).st.status = .deployed ∧
    (∃ e, (enablePages sampleConfig (fun _ => .ok ⟨429⟩) none).result = .error e) := by
  refine ⟨⟨by decide, by decide⟩, ?_, ?_, ?_, ?_⟩
  · exact (enablePages_C10_amended.1 sampleConfig ⟨404⟩ (by decide) (by decide)).1
  · exact ((enablePages_C10_amended.1 sampleConfig ⟨404⟩ (by decide) (by decide)).2).trans
      (by decide)
  · exact (enablePages_C10_amended.2.2.2.2 ⟨404⟩ (by decide) (by decide)).2
  · exact enablePages_C10_amended.2.1 sampleConfig ⟨429⟩ (Or.inl rfl)

/-- Counterexample to C10 as stated: a hosting service answering 500 on
every attempt makes `enablePages` raise after its retries (an HTTP status,
not a transport failure or a cancellation), and the Publish run carrying
that outcome ends fatally at `ready`, not `deployed`. -/
theorem enablePages_http_C10_cex :
    (∃ e, (enablePages sampleConfig (fun _ => .ok ⟨500⟩) none).result = .error e) ∧
    (handlePublish readyState
      (publishEnvWith ((enablePages sampleConfig (fun _ => .ok ⟨500⟩) none).result))
      .never).exit = .fatal ∧
    (handlePublish readyState
      (publishEnvWith ((enablePages sampleConfig (fun _ => .ok ⟨500⟩) none).result))
      .never).st.status = .ready := by
  exact ⟨⟨httpStatusErr 500, rfl⟩, rfl, rfl⟩
